import Mathlib

/-!
# Landing-page interaction script (`src/script.js`)

A shallow embedding of the behaviours of `script.js` and the properties
proved about them.  Every DOM object the script touches is represented by
the part of its state the script reads or writes:

* a `classList` is the ordered token set of the DOM standard (`List String`
  without the operations ever inserting a duplicate);
* an attribute is an `Option String` (`none` = attribute absent, which is
  what `getAttribute` reports as `null` and `dataset` as `undefined`);
* times and pixel offsets are integers (`Int`): the script only performs
  integer arithmetic on them, which is exact on JavaScript numbers below
  `2^53` in magnitude; a deadline that does not parse (`NaN`) is outside the
  model;
* host functions whose result the script only consumes are parameters:
  `document.querySelector`, the list `querySelectorAll` returns inside the
  drawer, `String.prototype.toLowerCase` and the host's decision whether an
  element can take focus.
-/

namespace Script

/-! ## DOMTokenList (`element.classList`) -/

namespace DOMTokenList

/-- `classList.contains(token)`. -/
def contains (l : List String) (token : String) : Bool :=
  decide (token ∈ l)

/-- `classList.add(token)`: appends the token unless it is already there. -/
def add (l : List String) (token : String) : List String :=
  if contains l token then l else l ++ [token]

/-- `classList.remove(token)`. -/
def remove (l : List String) (token : String) : List String :=
  l.filter (fun t => t != token)

/-- `classList.toggle(token)`: removes the token when present, adds it otherwise. -/
def toggle (l : List String) (token : String) : List String :=
  if contains l token then remove l token else add l token

/-- `classList.toggle(token, force)`: adds when `force` is true, removes otherwise. -/
def toggleForce (l : List String) (token : String) (force : Bool) : List String :=
  if force then add l token else remove l token

end DOMTokenList

/-- String conversion of a JavaScript boolean (what `setAttribute` stores
when it is handed `!isExpanded`). -/
def boolToString (b : Bool) : String :=
  if b then "true" else "false"

/-! ## Mobile menu (script.js lines 5-51) -/

/-- The three pieces of DOM state the mobile-menu code reads and writes. -/
structure Drawer where
  /-- the `aria-expanded` attribute of `.hamburger` (`none` = absent) -/
  ariaExpanded : Option String
  /-- `mobileNav.classList` -/
  navClasses : List String
  /-- `document.body.classList` -/
  bodyClasses : List String
deriving DecidableEq, Repr

/-- `toggleMobileMenu()` (lines 11-17). -/
def toggleMobileMenu (s : Drawer) : Drawer :=
  let isExpanded : Bool := decide (s.ariaExpanded = some "true")
  { ariaExpanded := some (boolToString (!isExpanded))
    navClasses := DOMTokenList.toggle s.navClasses "active"
    bodyClasses := DOMTokenList.toggle s.bodyClasses "menu-open" }

/-- `closeMobileMenu()` (lines 20-24). -/
def closeMobileMenu (s : Drawer) : Drawer :=
  { ariaExpanded := some "false"
    navClasses := DOMTokenList.remove s.navClasses "active"
    bodyClasses := DOMTokenList.remove s.bodyClasses "menu-open" }

/-- Nodes of a click's propagation path that matter to the menu listeners:
the path runs from the event target up to the document. -/
inductive PathNode where
  | hamburger
  | mobileNav
  | mobileNavLink
  | other
deriving DecidableEq, Repr

/-- The listener an element on the propagation path carries (lines 27-34). -/
def elementClickListener (node : PathNode) (s : Drawer) : Drawer :=
  match node with
  | PathNode.hamburger => toggleMobileMenu s
  | PathNode.mobileNavLink => closeMobileMenu s
  | PathNode.mobileNav => s
  | PathNode.other => s

/-- The `click` listener on `document` (lines 37-44);
`mobileNav.contains(e.target)` holds exactly when `mobileNav` is on the
propagation path, and likewise for the hamburger. -/
def documentClickListener (path : List PathNode) (s : Drawer) : Drawer :=
  let isClickInsideNav : Bool := decide (PathNode.mobileNav ∈ path)
  let isClickOnHamburger : Bool := decide (PathNode.hamburger ∈ path)
  if !isClickInsideNav && !isClickOnHamburger
      && DOMTokenList.contains s.navClasses "active" then
    closeMobileMenu s
  else s

/-- The `keydown` listener on `document` (lines 47-51). -/
def documentKeydownListener (key : String) (s : Drawer) : Drawer :=
  if key == "Escape" && DOMTokenList.contains s.navClasses "active" then
    closeMobileMenu s
  else s

/-- Events the menu code listens to. -/
inductive DrawerEvent where
  /-- a click whose propagation path (target first) is `path` -/
  | click (path : List PathNode)
  /-- a key press with `e.key = key` -/
  | keydown (key : String)
deriving DecidableEq, Repr

/-- Dispatch of one event: the listeners on the path run target-first, the
document listener last (the script never stops propagation). -/
def drawerStep (s : Drawer) (e : DrawerEvent) : Drawer :=
  match e with
  | DrawerEvent.click path =>
      documentClickListener path (path.foldl (fun acc node => elementClickListener node acc) s)
  | DrawerEvent.keydown key => documentKeydownListener key s

/-- Dispatch of a sequence of events. -/
def drawerRun (s : Drawer) (es : List DrawerEvent) : Drawer :=
  es.foldl drawerStep s

/-- a click on the hamburger itself -/
def triggerToggle : DrawerEvent := DrawerEvent.click [PathNode.hamburger]

/-- a click on a link inside the drawer -/
def drawerLinkClick : DrawerEvent :=
  DrawerEvent.click [PathNode.mobileNavLink, PathNode.mobileNav]

/-- a click outside both the drawer and the hamburger -/
def clickOutside : DrawerEvent := DrawerEvent.click [PathNode.other]

/-- the Escape key -/
def escapeKeydown : DrawerEvent := DrawerEvent.keydown "Escape"

/-- The three indicators of "the drawer is open" agree. -/
def Drawer.Agree (s : Drawer) : Prop :=
  (s.ariaExpanded = some "true" ↔ "active" ∈ s.navClasses) ∧
  ("active" ∈ s.navClasses ↔ "menu-open" ∈ s.bodyClasses)

/-! ## Countdown timers (script.js lines 110-141) -/

/-- `String.prototype.padStart(targetLength, padString)`: the receiver is
returned unchanged when it is long enough or the pad string is empty,
otherwise the pad string is repeated and cut to the missing length. -/
def padStart (s : String) (targetLength : Nat) (padString : String) : String :=
  if targetLength ≤ s.length then s
  else if padString.length = 0 then s
  else
    let fillLen := targetLength - s.length
    String.mk ((List.replicate fillLen padString.data).flatten.take fillLen) ++ s

/-- `String(n)` for an integral number `n` (below `10^21` in magnitude JavaScript
prints the plain decimal digits, with a leading `-` for negatives). -/
def numberToString (n : Int) : String :=
  toString n

/-- The display node of one countdown. -/
structure TimerElement where
  textContent : String
deriving DecidableEq, Repr

/-- Line 122: `Math.floor((distance % (1000 * 60 * 60 * 24)) / (1000 * 60 * 60))`.
`%` is the truncating remainder of JavaScript and `Math.floor(x / y)` of two
integers is floor division. -/
def hoursOf (distance : Int) : Int :=
  Int.fdiv (Int.tmod distance (1000 * 60 * 60 * 24)) (1000 * 60 * 60)

/-- Line 123: `Math.floor((distance % (1000 * 60 * 60)) / (1000 * 60))`. -/
def minutesOf (distance : Int) : Int :=
  Int.fdiv (Int.tmod distance (1000 * 60 * 60)) (1000 * 60)

/-- Line 124: `Math.floor((distance % (1000 * 60)) / 1000)`. -/
def secondsOf (distance : Int) : Int :=
  Int.fdiv (Int.tmod distance (1000 * 60)) 1000

/-- The inner `update()` of `updateCountdown` (lines 113-128), given the parsed
deadline `endTime` and the clock reading `now`, both in milliseconds. -/
def update (endTime now : Int) (timerElement : TimerElement) : TimerElement :=
  let distance := endTime - now
  if distance < 0 then
    { timerElement with textContent := "00 : 00 : 00" }
  else
    let hours := hoursOf distance
    let minutes := minutesOf distance
    let seconds := secondsOf distance
    let formattedTime :=
      padStart (numberToString hours) 2 "0" ++ " : " ++
      padStart (numberToString minutes) 2 "0" ++ " : " ++
      padStart (numberToString seconds) 2 "0"
    { timerElement with textContent := formattedTime }

/-- `updateCountdown(timerElement)` followed by the interval firing at the clock
readings `ticks`: one `update` at `now`, then one per tick. -/
def updateCountdown (endTime now : Int) (ticks : List Int) (timerElement : TimerElement) :
    TimerElement :=
  ticks.foldl (fun el t => update endTime t el) (update endTime now timerElement)

/-- The hour field of the countdown as the specification words it:
`floor(d / 3600000) mod 24`. -/
def specHours (d : Int) : Int := (d / 3600000) % 24

/-- The minute field as the specification words it: `floor(d / 60000) mod 60`. -/
def specMinutes (d : Int) : Int := (d / 60000) % 60

/-- The second field as the specification words it: `floor(d / 1000) mod 60`. -/
def specSeconds (d : Int) : Int := (d / 1000) % 60

/-- The decimal digit character of `k < 10`. -/
def digitChar (k : Nat) : Char := Char.ofNat (48 + k)

/-- Two-digit zero-padded rendering of a field, as the specification words it:
the tens digit followed by the units digit. -/
def twoDigits (n : Int) : String :=
  String.mk [digitChar (n.toNat / 10), digitChar (n.toNat % 10)]

/-- The countdown text as the specification words it. -/
def specCountdownText (d : Int) : String :=
  if d < 0 then "00 : 00 : 00"
  else twoDigits (specHours d) ++ " : " ++ twoDigits (specMinutes d) ++ " : " ++
    twoDigits (specSeconds d)

/-! ## Category filter (script.js lines 308-344) -/

/-- `String.prototype.toLowerCase` on strings of ASCII characters, where it
turns the letters `A`-`Z` into `a`-`z` and leaves every other character as it
is.  The filter code itself takes the host's full (Unicode) function as the
parameter `toLowerCase`; this instance serves at ASCII inputs only. -/
def asciiToLowerCase (s : String) : String :=
  String.mk (s.data.map Char.toLower)

/-- White space as `String.prototype.trim` and the regular-expression class
`\s` understand it: TAB, LF, VT, FF, CR, the Unicode space separators,
the line and paragraph separators and U+FEFF. -/
def isWhiteSpace (c : Char) : Bool :=
  let n := c.toNat
  n == 9 || n == 10 || n == 11 || n == 12 || n == 13 || n == 32 || n == 160 ||
  n == 5760 || (8192 ≤ n && n ≤ 8202) || n == 8232 || n == 8233 || n == 8239 ||
  n == 8287 || n == 12288 || n == 65279

/-- `String.prototype.trim`. -/
def trim (s : String) : String :=
  String.mk ((s.data.dropWhile isWhiteSpace).reverse.dropWhile isWhiteSpace).reverse

/-- Worker of `replace(/\s+/g, '-')`: `inRun` tells that the previous
character was white space, whose run has already produced its hyphen. -/
def replaceWhiteSpaceRunsAux (inRun : Bool) : List Char → List Char
  | [] => []
  | c :: cs =>
      if isWhiteSpace c then
        if inRun then replaceWhiteSpaceRunsAux true cs
        else '-' :: replaceWhiteSpaceRunsAux true cs
      else c :: replaceWhiteSpaceRunsAux false cs

/-- `s.replace(/\s+/g, '-')`. -/
def replaceWhiteSpaceRuns (s : String) : String :=
  String.mk (replaceWhiteSpaceRunsAux false s.data)

/-- Truthiness of a value that is a string or `undefined`: only a non-empty
string is truthy. -/
def truthy (v : Option String) : Bool :=
  match v with
  | some s => s != ""
  | none => false

/-- `v || fallback` for a value that is a string or `undefined`. -/
def orElseString (v : Option String) (fallback : String) : String :=
  match v with
  | some s => if s != "" then s else fallback
  | none => fallback

/-- An `.nft-card` element as the filter sees it. -/
structure Card where
  /-- the `data-category` attribute -/
  category : Option String
  classes : List String
deriving DecidableEq, Repr

/-- A `.filter-btn` element. -/
structure Tab where
  /-- the `data-filter` attribute -/
  dataFilter : Option String
  textContent : String
  classes : List String
deriving DecidableEq, Repr

/-- `setActive(tab)` (lines 313-315), the tab being given by its position. -/
def setActive (tabs : List Tab) (tab : Nat) : List Tab :=
  tabs.enum.map (fun p =>
    { p.2 with classes := DOMTokenList.toggleForce p.2.classes "active" (p.1 == tab) })

/-- `applyFilter(filter)` (lines 317-326); `toLowerCase` is the host's
`String.prototype.toLowerCase`. -/
def applyFilter (toLowerCase : String → String) (filter : String) (cards : List Card) :
    List Card :=
  if filter = "all" then
    cards.map (fun c => { c with classes := DOMTokenList.remove c.classes "hidden" })
  else
    cards.map (fun c =>
      let cat := toLowerCase (orElseString c.category "")
      { c with classes := DOMTokenList.toggleForce c.classes "hidden" (cat != filter) })

/-- The value `f` the set-up loop computes for one control (lines 329-332). -/
def tabFilterKey (toLowerCase : String → String) (tab : Tab) : String :=
  match tab.dataFilter with
  | some f =>
      if f != "" then f
      else replaceWhiteSpaceRuns (toLowerCase (trim tab.textContent))
  | none => replaceWhiteSpaceRuns (toLowerCase (trim tab.textContent))

/-- The control after the set-up loop has visited it: a derived key is cached
in `data-filter` (line 332). -/
def tabCacheKey (toLowerCase : String → String) (tab : Tab) : Tab :=
  if truthy tab.dataFilter then tab
  else { tab with dataFilter := some (tabFilterKey toLowerCase tab) }

/-- State of the filter component: controls, cards and the key each click
listener captured. -/
structure FilterState where
  tabs : List Tab
  cards : List Card
  keys : List String
deriving DecidableEq, Repr

/-- The body of the immediately-invoked function (lines 308-344): nothing
happens when either collection is empty; otherwise every control gets its key
and listener, and the filter of the active control (or the first) is applied,
`all` standing in for an empty key. -/
def filterSetup (toLowerCase : String → String) (tabs : List Tab) (cards : List Card) :
    FilterState :=
  if tabs.length = 0 || cards.length = 0 then
    { tabs := tabs, cards := cards, keys := [] }
  else
    let keys := tabs.map (tabFilterKey toLowerCase)
    let tabs1 := tabs.map (tabCacheKey toLowerCase)
    let active : Option Tab :=
      match tabs1.find? (fun t => DOMTokenList.contains t.classes "active") with
      | some t => some t
      | none => tabs1.head?
    match active with
    | some a =>
        { tabs := tabs1
          cards := applyFilter toLowerCase (orElseString a.dataFilter "all") cards
          keys := keys }
    | none => { tabs := tabs1, cards := cards, keys := keys }

/-- The click listener of the control at position `tab` (lines 334-338). -/
def filterClick (toLowerCase : String → String) (tab : Nat) (st : FilterState) :
    FilterState :=
  match st.keys.get? tab with
  | some f =>
      { st with tabs := setActive st.tabs tab, cards := applyFilter toLowerCase f st.cards }
  | none => st

/-- Positions of the cards that carry the `hidden` class. -/
def hiddenCards (cards : List Card) : List Nat :=
  (List.range cards.length).filter (fun i =>
    match cards.get? i with
    | some c => DOMTokenList.contains c.classes "hidden"
    | none => false)

/-- Positions of the cards that do not carry the `hidden` class. -/
def visibleCards (cards : List Card) : List Nat :=
  (List.range cards.length).filter (fun i =>
    match cards.get? i with
    | some c => !DOMTokenList.contains c.classes "hidden"
    | none => false)

/-- The key of a control as the specification words it: the `data-filter`
attribute if present, else the label trimmed, lowercased and with white-space
runs replaced by single hyphens. -/
def specTabKey (toLowerCase : String → String) (tab : Tab) : String :=
  match tab.dataFilter with
  | some f => f
  | none => replaceWhiteSpaceRuns (toLowerCase (trim tab.textContent))

/-- The control that decides the initial filter, as the specification words
it: the first one marked `active`, or the first control when none is marked. -/
def specInitialTab (tabs : List Tab) : Option Tab :=
  match tabs.find? (fun t => DOMTokenList.contains t.classes "active") with
  | some t => some t
  | none => tabs.head?

/-- Case-insensitive equality of two strings. -/
def equalsIgnoreCase (toLowerCase : String → String) (a b : String) : Bool :=
  toLowerCase a == toLowerCase b

/-! ## Lazy image loading (script.js lines 230-246) -/

/-- An `img` element: its `src` and `data-src` attributes. -/
structure Img where
  src : Option String
  dataSrc : Option String
deriving DecidableEq, Repr

/-- An `IntersectionObserverEntry`: the observed element (by position) and
whether it intersects. -/
structure Entry where
  target : Nat
  isIntersecting : Bool
deriving DecidableEq, Repr

/-- The images of the page and the set of images `imageObserver` observes. -/
structure LazyState where
  images : List Img
  observed : List Nat
deriving DecidableEq, Repr

/-- What the callback does for one entry (lines 233-240). -/
def imageObserverEntry (st : LazyState) (entry : Entry) : LazyState :=
  if entry.isIntersecting then
    match st.images.get? entry.target with
    | some img =>
        if truthy img.dataSrc then
          { images := st.images.set entry.target { src := img.dataSrc, dataSrc := none }
            observed := st.observed.filter (fun j => j != entry.target) }
        else st
    | none => st
  else st

/-- The callback of `imageObserver` (lines 231-242). -/
def imageObserverCallback (entries : List Entry) (st : LazyState) : LazyState :=
  entries.foldl imageObserverEntry st

/-- Lines 244-245: every `img[data-src]` is observed (when the host offers
`IntersectionObserver`). -/
def lazySetup (hasIntersectionObserver : Bool) (images : List Img) : LazyState :=
  if hasIntersectionObserver then
    { images := images
      observed := (List.range images.length).filter (fun i =>
        match images.get? i with
        | some img => img.dataSrc.isSome
        | none => false) }
  else { images := images, observed := [] }

/-! ## Smooth scrolling (script.js lines 153-175) -/

/-- The exception `document.querySelector` throws on a string that is not a
valid selector. -/
inductive DOMException where
  | syntaxError
deriving DecidableEq, Repr

/-- An element found by `document.querySelector`, reduced to what the handler
reads: `getBoundingClientRect().top`. -/
structure TargetElement where
  top : Int
deriving DecidableEq, Repr

/-- The argument of `window.scrollTo`. -/
structure ScrollToOptions where
  top : Int
  behavior : String
deriving DecidableEq, Repr

/-- Everything observable about one run of the click handler. -/
structure AnchorOutcome where
  /-- `e.preventDefault()` was called -/
  defaultPrevented : Bool
  /-- the calls of `window.scrollTo`, in order -/
  scrolls : List ScrollToOptions
  /-- the exception that ended the handler, if any -/
  thrown : Option DOMException
deriving DecidableEq, Repr

/-- The click handler of a link with attribute `href` (lines 156-174).
`querySelector` is the host function `document.querySelector`, which either
throws or returns the first matching element or `null`. -/
def anchorClick (querySelector : String → Except DOMException (Option TargetElement))
    (pageYOffset : Int) (href : String) : AnchorOutcome :=
  let targetId := href
  if targetId = "#" then
    { defaultPrevented := true, scrolls := [], thrown := none }
  else
    match querySelector targetId with
    | Except.error ex => { defaultPrevented := true, scrolls := [], thrown := some ex }
    | Except.ok none => { defaultPrevented := true, scrolls := [], thrown := none }
    | Except.ok (some targetElement) =>
        let headerOffset : Int := 80
        let elementPosition := targetElement.top
        let offsetPosition := elementPosition + pageYOffset - headerOffset
        { defaultPrevented := true
          scrolls := [{ top := offsetPosition, behavior := "smooth" }]
          thrown := none }

/-- Characters a CSS identifier may start with, within ASCII. -/
def isIdentStart (c : Char) : Bool :=
  c.isAlpha || c == '_'

/-- Characters a CSS identifier may continue with, within ASCII. -/
def isIdentChar (c : Char) : Bool :=
  c.isAlpha || c.isDigit || c == '_' || c == '-'

/-- Whether a string of ASCII letters, digits, `_` and `-` is a CSS identifier:
it starts with a letter or `_`, or with `-` followed by a letter, `_` or `-`. -/
def isCssIdent (cs : List Char) : Bool :=
  match cs with
  | [] => false
  | '-' :: rest =>
      (match rest with
       | [] => false
       | c :: _ => isIdentStart c || c == '-')
  | c :: _ => isIdentStart c

/-- Host model of `document.querySelector` (Selectors API of the DOM standard)
on selectors of the shape `#` followed by ASCII letters, digits, `_` or `-`:
such a string is a valid ID selector exactly when what follows `#` is a CSS
identifier, in which case the first element with that id (or `null`) is
returned, and a `SyntaxError` is thrown otherwise.  `ids` lists the ids of the
document in tree order with the element each denotes; all other selector
strings are answered by `other`. -/
def idQuerySelector (ids : List (String × TargetElement))
    (other : String → Except DOMException (Option TargetElement))
    (selector : String) : Except DOMException (Option TargetElement) :=
  match selector.data with
  | '#' :: name =>
      if name.all isIdentChar && !name.isEmpty then
        if isCssIdent name then
          Except.ok ((ids.find? (fun p => p.1 == String.mk name)).map (fun p => p.2))
        else Except.error DOMException.syntaxError
      else other selector
  | _ => other selector

/-! ## Focus trap (script.js lines 253-275) -/

/-- The exception raised by a method call on `undefined`. -/
inductive TypeError where
  | undefinedReceiver
deriving DecidableEq, Repr

/-- A `keydown` event as the trap reads it. -/
structure KeyEvent where
  key : String
  shiftKey : Bool
deriving DecidableEq, Repr

/-- What `trapFocus` captures for its listener: `focusableElements[0]` and
`focusableElements[length - 1]`, each `undefined` (`none`) on an empty list.
Elements are named by numbers. -/
structure Trap where
  firstFocusable : Option Nat
  lastFocusable : Option Nat
deriving DecidableEq, Repr

/-- Lines 254-258 of `trapFocus`, `focusableElements` being the result of the
`querySelectorAll` call. -/
def trapFocus (focusableElements : List Nat) : Trap :=
  { firstFocusable := focusableElements.get? 0
    lastFocusable := focusableElements.get? (focusableElements.length - 1) }

/-- Focus and default-action state around one `keydown` dispatch. -/
structure FocusState where
  /-- `document.activeElement` (`none` = `null`) -/
  activeElement : Option Nat
  /-- `e.preventDefault()` was called -/
  defaultPrevented : Bool
deriving DecidableEq, Repr

/-- `document.activeElement === x` where `x` is an element or `undefined`:
`null` and `undefined` are not strictly equal. -/
def strictEqElement (activeElement : Option Nat) (x : Option Nat) : Bool :=
  match activeElement, x with
  | some a, some b => a == b
  | _, _ => false

/-- `x.focus()`: a `TypeError` when `x` is `undefined`; otherwise `x` becomes
the active element if the host lets it take focus, and nothing happens if it
does not (a disabled button, a hidden input).  `canFocus` is the host's
verdict on each element. -/
def focus (canFocus : Nat → Bool) (x : Option Nat) (st : FocusState) :
    Except TypeError FocusState :=
  match x with
  | some el => Except.ok (if canFocus el then { st with activeElement := some el } else st)
  | none => Except.error TypeError.undefinedReceiver

/-- The `keydown` listener `trapFocus` installs (lines 260-274).  It runs on
every `keydown` that reaches the drawer, whether or not the drawer is marked
`active`: the listener has no such check and is never removed. -/
def trapKeydown (canFocus : Nat → Bool) (trap : Trap) (e : KeyEvent) (st : FocusState) :
    Except TypeError FocusState :=
  if e.key != "Tab" then Except.ok st
  else if e.shiftKey then
    if strictEqElement st.activeElement trap.firstFocusable then
      (focus canFocus trap.lastFocusable st).map
        (fun st1 => { st1 with defaultPrevented := true })
    else Except.ok st
  else
    if strictEqElement st.activeElement trap.lastFocusable then
      (focus canFocus trap.firstFocusable st).map
        (fun st1 => { st1 with defaultPrevented := true })
    else Except.ok st

/-! ## Scroll animations and hover feedback (script.js lines 58-104, 181-223) -/

/-- An element of the page as the animation and hover code sees it. -/
structure Element where
  classes : List String
  /-- inline `style.transform` (`none` = never assigned) -/
  transform : Option String
  /-- inline `style.transitionDelay`: `some i` stands for the text the
  template `(i * 0.1)s` produces -/
  transitionDelay : Option Nat
deriving DecidableEq, Repr

/-- Applies `f` to the element at position `i`, if there is one. -/
def modifyAt (l : List Element) (i : Nat) (f : Element → Element) : List Element :=
  match l, i with
  | [], _ => []
  | a :: as, 0 => f a :: as
  | a :: as, i + 1 => a :: modifyAt as i f

/-- `document.querySelectorAll('.cls')`: positions, in document order, of the
elements carrying the class. -/
def querySelectorAllClass (elements : List Element) (cls : String) : List Nat :=
  (List.range elements.length).filter (fun i =>
    match elements.get? i with
    | some el => DOMTokenList.contains el.classes cls
    | none => false)

/-- State of the page for the animation and hover code. -/
structure MotionState where
  prefersReducedMotion : Bool
  elements : List Element
  /-- targets of the scroll observer; `none` when the observer was never created -/
  observer : Option (List Nat)
  /-- pending `setTimeout` callbacks: delay in milliseconds and target -/
  timers : List (Nat × Nat)
  /-- elements that received the `.btn` listeners -/
  buttons : List Nat
  /-- elements that received the `.nft-card` listeners -/
  nftCards : List Nat
deriving DecidableEq, Repr

/-- The selectors of `animateOnScroll` (lines 62-67), as class names. -/
def animateOnScroll : List String :=
  ["why-different", "explore-artwork", "nft-card", "partners"]

/-- Lines 93-96 for one element: tag it `fade-in` and observe it. -/
def observeElement (acc : List Element × List Nat) (i : Nat) : List Element × List Nat :=
  (modifyAt acc.1 i (fun el => { el with classes := DOMTokenList.add el.classes "fade-in" }),
   if acc.2.contains i then acc.2 else acc.2 ++ [i])

/-- Lines 91-97 for one selector. -/
def observeSelector (acc : List Element × List Nat) (cls : String) :
    List Element × List Nat :=
  (querySelectorAllClass acc.1 cls).foldl observeElement acc

/-- Lines 100-103: the stagger delay of every card. -/
def staggerCards (elements : List Element) : List Element :=
  (querySelectorAllClass elements "nft-card").enum.foldl
    (fun els p => modifyAt els p.2 (fun el => { el with transitionDelay := some p.1 })) elements

/-- Page load: the scroll-animation block runs only without the reduced-motion
preference (line 60); the hover listeners are attached in either case
(lines 181-223). -/
def motionSetup (prefersReducedMotion : Bool) (page : List Element) : MotionState :=
  if !prefersReducedMotion then
    let observedPage := animateOnScroll.foldl observeSelector (page, [])
    let elements := staggerCards observedPage.1
    { prefersReducedMotion := prefersReducedMotion
      elements := elements
      observer := some observedPage.2
      timers := []
      buttons := querySelectorAllClass elements "btn"
      nftCards := querySelectorAllClass elements "nft-card" }
  else
    { prefersReducedMotion := prefersReducedMotion
      elements := page
      observer := none
      timers := []
      buttons := querySelectorAllClass page "btn"
      nftCards := querySelectorAllClass page "nft-card" }

/-- `this.style.transform = value`. -/
def setTransform (st : MotionState) (i : Nat) (value : String) : MotionState :=
  { st with elements := modifyAt st.elements i (fun el => { el with transform := some value }) }

/-- Button `mouseenter` listener (lines 184-188). -/
def buttonMouseenter (i : Nat) (st : MotionState) : MotionState :=
  if !st.prefersReducedMotion then setTransform st i "scale(1.05)" else st

/-- Button `mouseleave` listener (lines 190-192). -/
def buttonMouseleave (i : Nat) (st : MotionState) : MotionState :=
  setTransform st i "scale(1)"

/-- Button `mousedown` listener (lines 194-198). -/
def buttonMousedown (i : Nat) (st : MotionState) : MotionState :=
  if !st.prefersReducedMotion then setTransform st i "scale(0.98)" else st

/-- Button `mouseup` listener (lines 200-204). -/
def buttonMouseup (i : Nat) (st : MotionState) : MotionState :=
  if !st.prefersReducedMotion then setTransform st i "scale(1.05)" else st

/-- Card `mouseenter` listener (lines 214-218). -/
def cardMouseenter (i : Nat) (st : MotionState) : MotionState :=
  if !st.prefersReducedMotion then setTransform st i "translateY(-10px)" else st

/-- Card `mouseleave` listener (lines 220-222). -/
def cardMouseleave (i : Nat) (st : MotionState) : MotionState :=
  setTransform st i "translateY(0)"

/-- `observerCallback` (lines 76-85): every intersecting entry schedules the
class change after `index * 100` milliseconds. -/
def observerCallback (entries : List Entry) (st : MotionState) : MotionState :=
  entries.enum.foldl
    (fun acc p =>
      if p.2.isIntersecting then { acc with timers := acc.timers ++ [(p.1 * 100, p.2.target)] }
      else acc)
    st

/-- The scheduled callback (line 81): `classList.add('fade-in', 'visible')`. -/
def revealElement (st : MotionState) (target : Nat) : MotionState :=
  { st with
    elements := modifyAt st.elements target (fun el =>
      { el with classes := DOMTokenList.add (DOMTokenList.add el.classes "fade-in") "visible" }) }

/-- Events that reach the animation and hover code. -/
inductive MotionEvent where
  | mouseenter (i : Nat)
  | mouseleave (i : Nat)
  | mousedown (i : Nat)
  | mouseup (i : Nat)
  /-- the host reports intersection changes of observed elements -/
  | intersect (entries : List Entry)
  /-- the pending timer at position `k` fires -/
  | timeout (k : Nat)
deriving DecidableEq, Repr

/-- Runs `listener` when element `i` is among `registered`. -/
def whenRegistered (registered : List Nat) (i : Nat)
    (listener : Nat → MotionState → MotionState) (st : MotionState) : MotionState :=
  if registered.contains i then listener i st else st

/-- Dispatch of one event on element `i`: the `.btn` listener (registered
first) runs before the `.nft-card` listener; intersection reports exist only
if the observer does, and only for its targets. -/
def motionStep (st : MotionState) (e : MotionEvent) : MotionState :=
  match e with
  | MotionEvent.mouseenter i =>
      whenRegistered st.nftCards i cardMouseenter (whenRegistered st.buttons i buttonMouseenter st)
  | MotionEvent.mouseleave i =>
      whenRegistered st.nftCards i cardMouseleave (whenRegistered st.buttons i buttonMouseleave st)
  | MotionEvent.mousedown i => whenRegistered st.buttons i buttonMousedown st
  | MotionEvent.mouseup i => whenRegistered st.buttons i buttonMouseup st
  | MotionEvent.intersect entries =>
      (match st.observer with
       | some targets => observerCallback (entries.filter (fun en => targets.contains en.target)) st
       | none => st)
  | MotionEvent.timeout k =>
      (match st.timers.get? k with
       | some t => revealElement { st with timers := st.timers.eraseIdx k } t.2
       | none => st)

/-- Dispatch of a sequence of events. -/
def motionRun (st : MotionState) (es : List MotionEvent) : MotionState :=
  es.foldl motionStep st

/-- Whether the event is a `mouseleave`. -/
def MotionEvent.isMouseleave (e : MotionEvent) : Bool :=
  match e with
  | MotionEvent.mouseleave _ => true
  | _ => false

/-- What the animation and hover code keeps, under reduced motion, of an
original element `a` in its current version `b`: the class list and the
transition delay are not written by this code at all, and the inline transform
only with the two reset values of the `mouseleave` listeners. -/
def Kept (a b : Element) : Prop :=
  b.classes = a.classes ∧ b.transitionDelay = a.transitionDelay ∧
  (b.transform = a.transform ∨ b.transform = some "scale(1)" ∨
    b.transform = some "translateY(0)")

/-- Invariant of the page under the reduced-motion preference: the scroll
observer does not exist, no timer is pending, and every element is `Kept`. -/
def ReducedInv (page : List Element) (st : MotionState) : Prop :=
  st.prefersReducedMotion = true ∧ st.observer = none ∧ st.timers = [] ∧
  List.Forall₂ Kept page st.elements

/-! # Theorems -/

/-! ## DOMTokenList -/

theorem tokenList_mem_add (l : List String) (t x : String) :
    x ∈ DOMTokenList.add l t ↔ x ∈ l ∨ x = t := by
  unfold DOMTokenList.add DOMTokenList.contains
  by_cases h : t ∈ l
  · simp only [h, decide_True, if_true]
    constructor
    · intro hx; exact Or.inl hx
    · rintro (hx | rfl)
      · exact hx
      · exact h
  · simp [h]

theorem tokenList_mem_remove (l : List String) (t x : String) :
    x ∈ DOMTokenList.remove l t ↔ x ∈ l ∧ x ≠ t := by
  unfold DOMTokenList.remove
  simp

theorem tokenList_mem_toggle (l : List String) (t x : String) :
    x ∈ DOMTokenList.toggle l t ↔ (x ∈ l ∧ x ≠ t) ∨ (x = t ∧ t ∉ l) := by
  unfold DOMTokenList.toggle
  by_cases h : t ∈ l
  · have hc : DOMTokenList.contains l t = true := by simp [DOMTokenList.contains, h]
    rw [if_pos hc, tokenList_mem_remove]
    constructor
    · intro hx; exact Or.inl hx
    · rintro (hx | ⟨_, hn⟩)
      · exact hx
      · exact absurd h hn
  · have hc : ¬ DOMTokenList.contains l t = true := by simp [DOMTokenList.contains, h]
    rw [if_neg hc, tokenList_mem_add]
    constructor
    · rintro (hx | rfl)
      · exact Or.inl ⟨hx, fun e => h (e ▸ hx)⟩
      · exact Or.inr ⟨rfl, h⟩
    · rintro (⟨hx, _⟩ | ⟨rfl, _⟩)
      · exact Or.inl hx
      · exact Or.inr rfl

theorem tokenList_mem_toggle_toggle (l : List String) (t x : String) :
    x ∈ DOMTokenList.toggle (DOMTokenList.toggle l t) t ↔ x ∈ l := by
  rw [tokenList_mem_toggle, tokenList_mem_toggle, tokenList_mem_toggle]
  by_cases hx : x = t
  · subst hx
    by_cases hl : x ∈ l <;> simp [hl]
  · simp [hx]

theorem tokenList_contains_iff (l : List String) (t : String) :
    DOMTokenList.contains l t = true ↔ t ∈ l := by
  simp [DOMTokenList.contains]

/-! ## Mobile menu -/

theorem toggle_toggle_navClasses (s : Drawer) (x : String) :
    x ∈ (toggleMobileMenu (toggleMobileMenu s)).navClasses ↔ x ∈ s.navClasses := by
  simp only [toggleMobileMenu]
  exact tokenList_mem_toggle_toggle _ _ _

theorem toggle_toggle_bodyClasses (s : Drawer) (x : String) :
    x ∈ (toggleMobileMenu (toggleMobileMenu s)).bodyClasses ↔ x ∈ s.bodyClasses := by
  simp only [toggleMobileMenu]
  exact tokenList_mem_toggle_toggle _ _ _

theorem toggle_toggle_ariaExpanded (s : Drawer) :
    (toggleMobileMenu (toggleMobileMenu s)).ariaExpanded =
      if s.ariaExpanded = some "true" then some "true" else some "false" := by
  by_cases h : s.ariaExpanded = some "true"
  · simp [toggleMobileMenu, boolToString, h]
  · simp [toggleMobileMenu, boolToString, h]

theorem iterate_toggle_double (k : Nat) (s : Drawer) :
    (∀ x, x ∈ (Nat.iterate toggleMobileMenu (k + k) s).navClasses ↔ x ∈ s.navClasses) ∧
    (∀ x, x ∈ (Nat.iterate toggleMobileMenu (k + k) s).bodyClasses ↔ x ∈ s.bodyClasses) ∧
    (Nat.iterate toggleMobileMenu (k + k) s).ariaExpanded =
      if k = 0 then s.ariaExpanded
      else if s.ariaExpanded = some "true" then some "true" else some "false" := by
  induction k generalizing s with
  | zero => simp
  | succ k ih =>
    have e : k + 1 + (k + 1) = (k + k) + 1 + 1 := by omega
    rw [e, Function.iterate_succ_apply, Function.iterate_succ_apply]
    obtain ⟨h1, h2, h3⟩ := ih (toggleMobileMenu (toggleMobileMenu s))
    refine ⟨fun x => (h1 x).trans (toggle_toggle_navClasses s x),
      fun x => (h2 x).trans (toggle_toggle_bodyClasses s x), ?_⟩
    rw [h3, toggle_toggle_ariaExpanded]
    by_cases hk : k = 0
    · simp [hk]
    · by_cases hs : s.ariaExpanded = some "true" <;> simp [hk, hs]

/-- C2 (as amended): an even number `n` of calls of `toggleMobileMenu` leaves
the class lists of the drawer and of the body with the same members (so
`active` and `menu-open` are present exactly when they were), and leaves
`aria-expanded` as it was when it was `"true"` or `"false"`; from any other
value or from an absent attribute, `n > 0` calls leave it `"false"`. -/
theorem toggleMobileMenu_even (s : Drawer) (n : Nat) (h : Even n) :
    (∀ x, x ∈ (Nat.iterate toggleMobileMenu n s).navClasses ↔ x ∈ s.navClasses) ∧
    (∀ x, x ∈ (Nat.iterate toggleMobileMenu n s).bodyClasses ↔ x ∈ s.bodyClasses) ∧
    ((s.ariaExpanded = some "true" ∨ s.ariaExpanded = some "false") →
      (Nat.iterate toggleMobileMenu n s).ariaExpanded = s.ariaExpanded) ∧
    (0 < n → s.ariaExpanded ≠ some "true" →
      (Nat.iterate toggleMobileMenu n s).ariaExpanded = some "false") := by
  obtain ⟨k, rfl⟩ := h
  obtain ⟨h1, h2, h3⟩ := iterate_toggle_double k s
  refine ⟨h1, h2, ?_, ?_⟩
  · rintro (hs | hs)
    · rw [h3]; by_cases hk : k = 0 <;> simp [hk, hs]
    · rw [h3]; by_cases hk : k = 0 <;> simp [hk, hs]
  · intro hn hs
    have hk : k ≠ 0 := by omega
    rw [h3]; simp [hk, hs]

/-- Witness of `toggleMobileMenu_even`: two toggles of an open drawer. -/
theorem toggleMobileMenu_even_witness :
    Even 2 ∧
    ((∀ x, x ∈ (Nat.iterate toggleMobileMenu 2
        ⟨some "true", ["mobile-nav", "active"], ["menu-open"]⟩).navClasses ↔
        x ∈ ["mobile-nav", "active"]) ∧
     (Nat.iterate toggleMobileMenu 2
        ⟨some "true", ["mobile-nav", "active"], ["menu-open"]⟩).ariaExpanded = some "true") :=
  ⟨by decide,
   (toggleMobileMenu_even ⟨some "true", ["mobile-nav", "active"], ["menu-open"]⟩ 2
      (by decide)).1,
   (toggleMobileMenu_even ⟨some "true", ["mobile-nav", "active"], ["menu-open"]⟩ 2
      (by decide)).2.2.1 (Or.inl rfl)⟩

/-- C2 as stated fails: with the `aria-expanded` attribute absent, two toggles
leave it present with value `"false"`. -/
theorem toggleMobileMenu_even_counterexample :
    Even 2 ∧
    (Nat.iterate toggleMobileMenu 2 ⟨none, [], []⟩).ariaExpanded = some "false" ∧
    (Nat.iterate toggleMobileMenu 2 ⟨none, [], []⟩).ariaExpanded ≠
      (⟨none, [], []⟩ : Drawer).ariaExpanded := by
  decide

theorem closeMobileMenu_closed (s : Drawer) :
    (closeMobileMenu s).ariaExpanded = some "false" ∧
    "active" ∉ (closeMobileMenu s).navClasses ∧
    "menu-open" ∉ (closeMobileMenu s).bodyClasses := by
  refine ⟨rfl, ?_, ?_⟩
  · simp [closeMobileMenu, tokenList_mem_remove]
  · simp [closeMobileMenu, tokenList_mem_remove]

theorem closeMobileMenu_agree (s : Drawer) : (closeMobileMenu s).Agree := by
  obtain ⟨h1, h2, h3⟩ := closeMobileMenu_closed s
  unfold Drawer.Agree
  rw [h1]
  constructor
  · constructor
    · intro h; exact absurd h (by decide)
    · intro h; exact absurd h h2
  · constructor
    · intro h; exact absurd h h2
    · intro h; exact absurd h h3

theorem toggleMobileMenu_agree (s : Drawer) (h : s.Agree) : (toggleMobileMenu s).Agree := by
  obtain ⟨h1, h2⟩ := h
  unfold Drawer.Agree
  simp only [toggleMobileMenu, tokenList_mem_toggle]
  by_cases ha : s.ariaExpanded = some "true"
  · have hn : "active" ∈ s.navClasses := h1.mp ha
    have hb : "menu-open" ∈ s.bodyClasses := h2.mp hn
    simp [ha, hn, hb, boolToString]
  · have hn : "active" ∉ s.navClasses := fun h => ha (h1.mpr h)
    have hb : "menu-open" ∉ s.bodyClasses := fun h => hn (h2.mpr h)
    simp [ha, hn, hb, boolToString]

theorem elementClickListener_agree (node : PathNode) (s : Drawer) (h : s.Agree) :
    (elementClickListener node s).Agree := by
  cases node
  · exact toggleMobileMenu_agree s h
  · exact h
  · exact closeMobileMenu_agree s
  · exact h

theorem pathListeners_agree (path : List PathNode) (s : Drawer) (h : s.Agree) :
    (path.foldl (fun acc node => elementClickListener node acc) s).Agree := by
  induction path generalizing s with
  | nil => exact h
  | cons node rest ih => exact ih _ (elementClickListener_agree node s h)

theorem documentClickListener_agree (path : List PathNode) (s : Drawer) (h : s.Agree) :
    (documentClickListener path s).Agree := by
  unfold documentClickListener
  simp only
  split
  · exact closeMobileMenu_agree s
  · exact h

theorem documentKeydownListener_agree (key : String) (s : Drawer) (h : s.Agree) :
    (documentKeydownListener key s).Agree := by
  unfold documentKeydownListener
  split
  · exact closeMobileMenu_agree s
  · exact h

theorem drawerStep_agree (s : Drawer) (e : DrawerEvent) (h : s.Agree) :
    (drawerStep s e).Agree := by
  cases e with
  | click path =>
    exact documentClickListener_agree path _ (pathListeners_agree path s h)
  | keydown key => exact documentKeydownListener_agree key s h

/-- C10: from a state in which `aria-expanded` is `"true"` exactly when the
drawer has `active` exactly when the body has `menu-open`, every sequence of
clicks (on the trigger, on drawer links, anywhere else) and key presses keeps
the three in agreement; and `closeMobileMenu`, from any state at all, leaves
`aria-expanded` equal to `"false"` and both classes absent. -/
theorem drawer_agree_invariant (s : Drawer) (es : List DrawerEvent) (h : s.Agree) :
    (drawerRun s es).Agree ∧
    ∀ s0 : Drawer, (closeMobileMenu s0).ariaExpanded = some "false" ∧
      "active" ∉ (closeMobileMenu s0).navClasses ∧
      "menu-open" ∉ (closeMobileMenu s0).bodyClasses := by
  refine ⟨?_, closeMobileMenu_closed⟩
  unfold drawerRun
  induction es generalizing s with
  | nil => exact h
  | cons e rest ih => exact ih _ (drawerStep_agree s e h)

/-- Witness of `drawer_agree_invariant`: a closed drawer that is opened, has a
link clicked, is opened again, receives an outside click, is opened a third
time and receives Escape. -/
theorem drawer_agree_invariant_witness :
    (⟨some "false", ["mobile-nav"], []⟩ : Drawer).Agree ∧
    (drawerRun ⟨some "false", ["mobile-nav"], []⟩
      [triggerToggle, drawerLinkClick, triggerToggle, clickOutside, triggerToggle,
        escapeKeydown]).Agree :=
  ⟨by unfold Drawer.Agree; decide,
   (drawer_agree_invariant ⟨some "false", ["mobile-nav"], []⟩
      [triggerToggle, drawerLinkClick, triggerToggle, clickOutside, triggerToggle,
        escapeKeydown] (by unfold Drawer.Agree; decide)).1⟩

/-! ## Countdown -/

theorem hoursOf_eq (d : Int) (hd : 0 ≤ d) : hoursOf d = specHours d := by
  unfold hoursOf specHours
  rw [Int.tmod_eq_emod hd (by norm_num), Int.fdiv_eq_ediv _ (by norm_num)]
  norm_num
  omega

theorem minutesOf_eq (d : Int) (hd : 0 ≤ d) : minutesOf d = specMinutes d := by
  unfold minutesOf specMinutes
  rw [Int.tmod_eq_emod hd (by norm_num), Int.fdiv_eq_ediv _ (by norm_num)]
  norm_num
  omega

theorem secondsOf_eq (d : Int) (hd : 0 ≤ d) : secondsOf d = specSeconds d := by
  unfold secondsOf specSeconds
  rw [Int.tmod_eq_emod hd (by norm_num), Int.fdiv_eq_ediv _ (by norm_num)]
  norm_num
  omega

set_option maxRecDepth 100000 in
theorem padStart_small (k : Fin 100) :
    padStart (numberToString (k.val : Int)) 2 "0" = twoDigits (k.val : Int) ∧
    (padStart (numberToString (k.val : Int)) 2 "0").length = 2 ∧
    (padStart (numberToString (k.val : Int)) 2 "0").data.all Char.isDigit = true := by
  revert k
  decide

theorem padStart_field (n : Int) (h0 : 0 ≤ n) (h1 : n < 100) :
    padStart (numberToString n) 2 "0" = twoDigits n ∧
    (padStart (numberToString n) 2 "0").length = 2 ∧
    (padStart (numberToString n) 2 "0").data.all Char.isDigit = true := by
  obtain ⟨k, rfl⟩ := Int.eq_ofNat_of_zero_le h0
  have hk : k < 100 := by omega
  exact padStart_small ⟨k, hk⟩

theorem specFields_bounds (d : Int) :
    (0 ≤ specHours d ∧ specHours d < 24) ∧ (0 ≤ specMinutes d ∧ specMinutes d < 60) ∧
    (0 ≤ specSeconds d ∧ specSeconds d < 60) := by
  unfold specHours specMinutes specSeconds
  omega

theorem update_nonneg (endTime now : Int) (el : TimerElement) (h : 0 ≤ endTime - now) :
    (update endTime now el).textContent =
      padStart (numberToString (hoursOf (endTime - now))) 2 "0" ++ " : " ++
      padStart (numberToString (minutesOf (endTime - now))) 2 "0" ++ " : " ++
      padStart (numberToString (secondsOf (endTime - now))) 2 "0" := by
  unfold update
  simp only [not_lt.mpr h, if_false]

/-- C1: one run of `update` sets the text to `"00 : 00 : 00"` when
`d = endTime - now` is negative, and otherwise to the two-digit renderings of
`floor(d / 3600000) mod 24`, `floor(d / 60000) mod 60` and
`floor(d / 1000) mod 60` joined by `" : "`; `d = 3661000` gives
`"01 : 01 : 01"` and `d = -1000` gives `"00 : 00 : 00"`. -/
theorem update_textContent (endTime now : Int) (el : TimerElement) :
    (update endTime now el).textContent = specCountdownText (endTime - now) ∧
    (update (now + 3661000) now el).textContent = "01 : 01 : 01" ∧
    (update (now - 1000) now el).textContent = "00 : 00 : 00" := by
  have key : ∀ e : Int, (update e now el).textContent = specCountdownText (e - now) := by
    intro e
    by_cases h : e - now < 0
    · simp [update, specCountdownText, h]
    · have h0 : 0 ≤ e - now := not_lt.mp h
      obtain ⟨hH, hM, hS⟩ := specFields_bounds (e - now)
      rw [update_nonneg e now el h0, hoursOf_eq _ h0, minutesOf_eq _ h0, secondsOf_eq _ h0,
        (padStart_field _ hH.1 (by omega)).1, (padStart_field _ hM.1 (by omega)).1,
        (padStart_field _ hS.1 (by omega)).1]
      simp only [specCountdownText, h, if_false]
  refine ⟨key endTime, ?_, ?_⟩
  · rw [key, show now + 3661000 - now = 3661000 by omega]
    decide
  · rw [key, show now - 1000 - now = -1000 by omega]
    decide

theorem padStart_field_data (n : Int) (h0 : 0 ≤ n) (h1 : n < 100) :
    (padStart (numberToString n) 2 "0").data =
      [Char.ofNat (48 + n.toNat / 10), Char.ofNat (48 + n.toNat % 10)] := by
  rw [(padStart_field n h0 h1).1]
  rfl

/-- C9: for a remaining duration `d ≥ 0` the fields `H`, `M`, `S` computed by
`update` satisfy `0 ≤ H < 24`, `0 ≤ M < 60`, `0 ≤ S < 60` and
`H * 3600 + M * 60 + S = floor(d / 1000) mod 86400`; the rendered text consists
of the tens and units digits of `H`, of `M` and of `S`, in this order and
separated by `" : "`, so each field is exactly two decimal digits; and `d` and
`d + 86400000` render the same text. -/
theorem countdown_fields (d : Int) (hd : 0 ≤ d) (now : Int) (el : TimerElement) :
    (0 ≤ hoursOf d ∧ hoursOf d < 24) ∧
    (0 ≤ minutesOf d ∧ minutesOf d < 60) ∧
    (0 ≤ secondsOf d ∧ secondsOf d < 60) ∧
    hoursOf d * 3600 + minutesOf d * 60 + secondsOf d = (d / 1000) % 86400 ∧
    (update (now + d) now el).textContent =
      padStart (numberToString (hoursOf d)) 2 "0" ++ " : " ++
      padStart (numberToString (minutesOf d)) 2 "0" ++ " : " ++
      padStart (numberToString (secondsOf d)) 2 "0" ∧
    ((padStart (numberToString (hoursOf d)) 2 "0").length = 2 ∧
      (padStart (numberToString (hoursOf d)) 2 "0").data.all Char.isDigit = true) ∧
    ((padStart (numberToString (minutesOf d)) 2 "0").length = 2 ∧
      (padStart (numberToString (minutesOf d)) 2 "0").data.all Char.isDigit = true) ∧
    ((padStart (numberToString (secondsOf d)) 2 "0").length = 2 ∧
      (padStart (numberToString (secondsOf d)) 2 "0").data.all Char.isDigit = true) ∧
    update (now + (d + 86400000)) now el = update (now + d) now el ∧
    (update (now + d) now el).textContent.data =
      [Char.ofNat (48 + (hoursOf d).toNat / 10), Char.ofNat (48 + (hoursOf d).toNat % 10),
       ' ', ':', ' ',
       Char.ofNat (48 + (minutesOf d).toNat / 10), Char.ofNat (48 + (minutesOf d).toNat % 10),
       ' ', ':', ' ',
       Char.ofNat (48 + (secondsOf d).toNat / 10),
       Char.ofNat (48 + (secondsOf d).toNat % 10)] := by
  obtain ⟨hH, hM, hS⟩ := specFields_bounds d
  have eH := hoursOf_eq d hd
  have eM := minutesOf_eq d hd
  have eS := secondsOf_eq d hd
  have hd2 : (0 : Int) ≤ d + 86400000 := by omega
  have htext : (update (now + d) now el).textContent =
      padStart (numberToString (hoursOf d)) 2 "0" ++ " : " ++
      padStart (numberToString (minutesOf d)) 2 "0" ++ " : " ++
      padStart (numberToString (secondsOf d)) 2 "0" := by
    have := update_nonneg (now + d) now el (by omega)
    rw [show now + d - now = d by omega] at this
    exact this
  refine ⟨eH ▸ hH, eM ▸ hM, eS ▸ hS, ?_, htext, ?_, ?_, ?_, ?_, ?_⟩
  · rw [eH, eM, eS]
    unfold specHours specMinutes specSeconds
    omega
  · rw [eH]; exact (padStart_field _ hH.1 (by omega)).2
  · rw [eM]; exact (padStart_field _ hM.1 (by omega)).2
  · rw [eS]; exact (padStart_field _ hS.1 (by omega)).2
  · have e1 := update_nonneg (now + d) now el (by omega)
    have e2 := update_nonneg (now + (d + 86400000)) now el (by omega)
    rw [show now + d - now = d by omega] at e1
    rw [show now + (d + 86400000) - now = d + 86400000 by omega] at e2
    have hh : hoursOf (d + 86400000) = hoursOf d := by
      rw [hoursOf_eq _ hd2, eH]; unfold specHours; omega
    have hm : minutesOf (d + 86400000) = minutesOf d := by
      rw [minutesOf_eq _ hd2, eM]; unfold specMinutes; omega
    have hs : secondsOf (d + 86400000) = secondsOf d := by
      rw [secondsOf_eq _ hd2, eS]; unfold specSeconds; omega
    rw [hh, hm, hs, ← e1] at e2
    have ext : ∀ a b : TimerElement, a.textContent = b.textContent → a = b := by
      intro a b h
      cases a
      cases b
      simp_all
    exact ext _ _ e2
  · have dH := padStart_field_data (hoursOf d) (eH ▸ hH.1) (by rw [eH]; omega)
    have dM := padStart_field_data (minutesOf d) (eM ▸ hM.1) (by rw [eM]; omega)
    have dS := padStart_field_data (secondsOf d) (eS ▸ hS.1) (by rw [eS]; omega)
    rw [htext]
    simp only [String.data_append, dH, dM, dS]
    rfl

/-- Witness of `countdown_fields`: one hour, one minute and one second left. -/
theorem countdown_fields_witness :
    (0 : Int) ≤ 3661000 ∧
    hoursOf 3661000 * 3600 + minutesOf 3661000 * 60 + secondsOf 3661000 =
      ((3661000 : Int) / 1000) % 86400 ∧
    update (0 + (3661000 + 86400000)) 0 ⟨""⟩ = update (0 + 3661000) 0 ⟨""⟩ ∧
    (update (0 + 3661000) 0 ⟨""⟩).textContent.data =
      [Char.ofNat (48 + (hoursOf 3661000).toNat / 10),
       Char.ofNat (48 + (hoursOf 3661000).toNat % 10),
       ' ', ':', ' ',
       Char.ofNat (48 + (minutesOf 3661000).toNat / 10),
       Char.ofNat (48 + (minutesOf 3661000).toNat % 10),
       ' ', ':', ' ',
       Char.ofNat (48 + (secondsOf 3661000).toNat / 10),
       Char.ofNat (48 + (secondsOf 3661000).toNat % 10)] :=
  ⟨by decide,
   (countdown_fields 3661000 (by decide) 0 ⟨""⟩).2.2.2.1,
   (countdown_fields 3661000 (by decide) 0 ⟨""⟩).2.2.2.2.2.2.2.2.1,
   (countdown_fields 3661000 (by decide) 0 ⟨""⟩).2.2.2.2.2.2.2.2.2⟩

/-! ## Category filter -/

theorem mem_hiddenCards (cards : List Card) (i : Nat) :
    i ∈ hiddenCards cards ↔ ∃ c, cards.get? i = some c ∧ "hidden" ∈ c.classes := by
  unfold hiddenCards
  rw [List.mem_filter, List.mem_range]
  constructor
  · rintro ⟨hi, h⟩
    cases hc : cards.get? i with
    | none => rw [hc] at h; exact absurd h (by decide)
    | some c =>
      rw [hc] at h
      exact ⟨c, rfl, (tokenList_contains_iff _ _).mp h⟩
  · rintro ⟨c, hc, hh⟩
    refine ⟨?_, ?_⟩
    · exact (List.get?_eq_some.mp hc).1
    · rw [hc]; exact (tokenList_contains_iff _ _).mpr hh

theorem applyFilter_get (toLowerCase : String → String) (filter : String)
    (cards : List Card) (i : Nat) (c : Card) (hc : cards.get? i = some c) :
    ∃ c1, (applyFilter toLowerCase filter cards).get? i = some c1 ∧
      c1.category = c.category ∧
      ("hidden" ∈ c1.classes ↔
        (filter ≠ "all" ∧ toLowerCase (orElseString c.category "") ≠ filter)) := by
  unfold applyFilter
  by_cases hf : filter = "all"
  · rw [if_pos hf]
    refine ⟨{ c with classes := DOMTokenList.remove c.classes "hidden" }, ?_, rfl, ?_⟩
    · rw [List.get?_eq_getElem?, List.getElem?_map, ← List.get?_eq_getElem?, hc]
      rfl
    · simp [tokenList_mem_remove, hf]
  · rw [if_neg hf]
    refine ⟨{ c with classes := (DOMTokenList.toggleForce c.classes "hidden"
      (toLowerCase (orElseString c.category "") != filter)) }, ?_, rfl, ?_⟩
    · rw [List.get?_eq_getElem?, List.getElem?_map, ← List.get?_eq_getElem?, hc]
      rfl
    · simp only [DOMTokenList.toggleForce]
      by_cases hcat : toLowerCase (orElseString c.category "") = filter
      · simp [hcat, tokenList_mem_remove, hf]
      · simp [hcat, tokenList_mem_add, hf]

theorem applyFilter_length (toLowerCase : String → String) (filter : String)
    (cards : List Card) : (applyFilter toLowerCase filter cards).length = cards.length := by
  unfold applyFilter
  split <;> simp

theorem applyFilter_hidden_iff (toLowerCase : String → String) (filter : String)
    (cards : List Card) (i : Nat) (c : Card) (hc : cards.get? i = some c) :
    i ∈ hiddenCards (applyFilter toLowerCase filter cards) ↔
      (filter ≠ "all" ∧ toLowerCase (orElseString c.category "") ≠ filter) := by
  obtain ⟨c1, h1, _, h3⟩ := applyFilter_get toLowerCase filter cards i c hc
  rw [mem_hiddenCards]
  constructor
  · rintro ⟨c2, h2, hh⟩
    rw [h1] at h2
    cases h2
    exact h3.mp hh
  · intro h
    exact ⟨c1, h1, h3.mpr h⟩

theorem applyFilter_all_hidden (toLowerCase : String → String) (cards : List Card) :
    hiddenCards (applyFilter toLowerCase "all" cards) = [] := by
  rw [List.eq_nil_iff_forall_not_mem]
  intro i hi
  obtain ⟨c1, h1, hh⟩ := (mem_hiddenCards _ _).mp hi
  have hlen : i < cards.length := by
    have := (List.get?_eq_some.mp h1).1
    rwa [applyFilter_length] at this
  obtain ⟨c, hc⟩ : ∃ c, cards.get? i = some c := ⟨_, List.get?_eq_get hlen⟩
  have := (applyFilter_hidden_iff toLowerCase "all" cards i c hc).mp
    ((mem_hiddenCards _ _).mpr ⟨c1, h1, hh⟩)
  exact this.1 rfl

/-- What `applyFilter` does for every key, whatever the host's lowercasing
function: `all` leaves no card hidden; for any other key `k` a card is hidden
exactly when its category (empty when absent), lowercased, differs from `k` as
written; this is the case-insensitive comparison whenever lowercasing leaves
`k` unchanged. -/
theorem applyFilter_hidden (toLowerCase : String → String) (cards : List Card) (k : String) :
    (k = "all" → hiddenCards (applyFilter toLowerCase k cards) = []) ∧
    (k ≠ "all" → ∀ i c, cards.get? i = some c →
      (i ∈ hiddenCards (applyFilter toLowerCase k cards) ↔
        toLowerCase (orElseString c.category "") ≠ k)) ∧
    (k ≠ "all" → toLowerCase k = k → ∀ i c, cards.get? i = some c →
      (i ∈ hiddenCards (applyFilter toLowerCase k cards) ↔
        equalsIgnoreCase toLowerCase (orElseString c.category "") k = false)) := by
  refine ⟨?_, ?_, ?_⟩
  · rintro rfl
    exact applyFilter_all_hidden toLowerCase cards
  · intro hk i c hc
    rw [applyFilter_hidden_iff toLowerCase k cards i c hc]
    exact ⟨fun h => h.2, fun h => ⟨hk, h⟩⟩
  · intro hk hlow i c hc
    rw [applyFilter_hidden_iff toLowerCase k cards i c hc]
    unfold equalsIgnoreCase
    rw [hlow]
    simp [hk]

/-- The example of the specification: cards tagged art, photo, art with key
`art` give visible cards 1 and 3 and hidden card 2 (positions 0, 2 and 1),
whatever was hidden before. -/
theorem applyFilter_art_example :
    visibleCards (applyFilter asciiToLowerCase "art"
        [⟨some "art", []⟩, ⟨some "photo", ["hidden"]⟩, ⟨some "art", ["hidden"]⟩]) = [0, 2] ∧
    hiddenCards (applyFilter asciiToLowerCase "art"
        [⟨some "art", []⟩, ⟨some "photo", ["hidden"]⟩, ⟨some "art", ["hidden"]⟩]) = [1] := by
  constructor <;> decide

/-- C4, the failing input: a control with `data-filter="Art"` over a card with
`data-category="Art"`.  For every lowercasing function that sends `Art` to
`art`, the set-up keeps the key `Art` as written, and the click on that control
hides the card although its category equals the key, even letter for letter. -/
theorem applyFilter_unlowered_key (toLowerCase : String → String)
    (h : toLowerCase "Art" = "art") :
    (filterSetup toLowerCase [⟨some "all", "All", ["active"]⟩, ⟨some "Art", "Art", []⟩]
      [⟨some "Art", []⟩]).keys = ["all", "Art"] ∧
    equalsIgnoreCase toLowerCase (orElseString (some "Art") "") "Art" = true ∧
    hiddenCards (filterSetup toLowerCase
      [⟨some "all", "All", ["active"]⟩, ⟨some "Art", "Art", []⟩] [⟨some "Art", []⟩]).cards = [] ∧
    hiddenCards (filterClick toLowerCase 1 (filterSetup toLowerCase
      [⟨some "all", "All", ["active"]⟩, ⟨some "Art", "Art", []⟩] [⟨some "Art", []⟩])).cards =
      [0] := by
  have hs : filterSetup toLowerCase [⟨some "all", "All", ["active"]⟩, ⟨some "Art", "Art", []⟩]
      [⟨some "Art", []⟩] =
      { tabs := [⟨some "all", "All", ["active"]⟩, ⟨some "Art", "Art", []⟩]
        cards := [⟨some "Art", []⟩]
        keys := ["all", "Art"] } := by
    rfl
  have hc : filterClick toLowerCase 1
      { tabs := [⟨some "all", "All", ["active"]⟩, ⟨some "Art", "Art", []⟩]
        cards := [⟨some "Art", []⟩]
        keys := ["all", "Art"] } =
      { tabs := [⟨some "all", "All", []⟩, ⟨some "Art", "Art", ["active"]⟩]
        cards := [⟨some "Art", ["hidden"]⟩]
        keys := ["all", "Art"] } := by
    simp [filterClick, applyFilter, orElseString, h, setActive, DOMTokenList.toggleForce,
      DOMTokenList.add, DOMTokenList.remove, DOMTokenList.contains, List.enum, List.enumFrom]
  refine ⟨by rw [hs], ?_, by rw [hs]; decide, by rw [hs, hc]; decide⟩
  simp [equalsIgnoreCase, orElseString]

/-- Witness of `applyFilter_unlowered_key`, at the lowercasing of ASCII
strings. -/
theorem applyFilter_unlowered_key_witness :
    asciiToLowerCase "Art" = "art" ∧
    hiddenCards (filterClick asciiToLowerCase 1 (filterSetup asciiToLowerCase
      [⟨some "all", "All", ["active"]⟩, ⟨some "Art", "Art", []⟩] [⟨some "Art", []⟩])).cards =
      [0] :=
  ⟨by decide, (applyFilter_unlowered_key asciiToLowerCase (by decide)).2.2.2⟩

/-! ### Initial filter -/

theorem tabCacheKey_classes (toLowerCase : String → String) (t : Tab) :
    (tabCacheKey toLowerCase t).classes = t.classes := by
  unfold tabCacheKey
  split <;> rfl

theorem tabCacheKey_dataFilter (toLowerCase : String → String) (t : Tab) :
    orElseString (tabCacheKey toLowerCase t).dataFilter "all" =
      if tabFilterKey toLowerCase t = "" then "all" else tabFilterKey toLowerCase t := by
  unfold tabCacheKey tabFilterKey truthy orElseString
  cases hd : t.dataFilter with
  | none =>
    simp only
    by_cases hk : replaceWhiteSpaceRuns (toLowerCase (trim t.textContent)) = ""
    · simp [hk]
    · simp [hk]
  | some f =>
    by_cases hf : f = ""
    · subst hf
      simp only [bne_self_eq_false, Bool.false_eq_true, if_false]
      by_cases hk : replaceWhiteSpaceRuns (toLowerCase (trim t.textContent)) = ""
      · simp [hk]
      · simp [hk]
    · simp [hf, hd]

theorem find_map_tabCacheKey (toLowerCase : String → String) (tabs : List Tab) :
    (tabs.map (tabCacheKey toLowerCase)).find?
        (fun t => DOMTokenList.contains t.classes "active") =
      (tabs.find? (fun t => DOMTokenList.contains t.classes "active")).map
        (tabCacheKey toLowerCase) := by
  induction tabs with
  | nil => rfl
  | cons t rest ih =>
    rw [List.map_cons, List.find?_cons, List.find?_cons, tabCacheKey_classes]
    cases DOMTokenList.contains t.classes "active" with
    | true => rfl
    | false => exact ih

theorem specInitialTab_isSome (tabs : List Tab) (h : tabs ≠ []) :
    ∃ t, specInitialTab tabs = some t := by
  unfold specInitialTab
  cases hfind : tabs.find? (fun t => DOMTokenList.contains t.classes "active") with
  | some t => exact ⟨t, rfl⟩
  | none =>
    cases tabs with
    | nil => exact absurd rfl h
    | cons t rest => exact ⟨t, rfl⟩

theorem filterSetup_cards (toLowerCase : String → String) (tabs : List Tab)
    (cards : List Card) (t : Tab)
    (ht : tabs ≠ []) (hc : cards ≠ []) (hi : specInitialTab tabs = some t) :
    (filterSetup toLowerCase tabs cards).cards =
      applyFilter toLowerCase
        (if tabFilterKey toLowerCase t = "" then "all" else tabFilterKey toLowerCase t)
        cards := by
  have h1 : ¬ tabs.length = 0 := fun h => ht (List.length_eq_zero.mp h)
  have h2 : ¬ cards.length = 0 := fun h => hc (List.length_eq_zero.mp h)
  unfold filterSetup
  simp only [h1, h2, decide_False, Bool.or_self, Bool.false_eq_true, if_false]
  rw [find_map_tabCacheKey]
  unfold specInitialTab at hi
  cases hfind : tabs.find? (fun t => DOMTokenList.contains t.classes "active") with
  | some a =>
    rw [hfind] at hi
    cases hi
    simp only [Option.map_some']
    rw [tabCacheKey_dataFilter]
  | none =>
    rw [hfind] at hi
    cases tabs with
    | nil => exact absurd rfl ht
    | cons a rest =>
      cases hi
      simp only [Option.map_none', List.map_cons, List.head?_cons]
      rw [tabCacheKey_dataFilter]

/-- C7 (as amended): with at least one control and one card, and whatever the
host's lowercasing function, the control that decides the initial filter is
the first one marked `active`, or the first control when none is marked; its
key is its `data-filter` attribute when that is present and not empty, and
otherwise the label trimmed, lowercased and with white-space runs replaced by
single hyphens; the filter applied at set-up is that key, except that an empty
key applies `all`.  So the cards hidden after set-up are those hidden by
applying that filter, and the key each click listener captured is the same
key. -/
theorem filterSetup_initial (toLowerCase : String → String) (tabs : List Tab)
    (cards : List Card) (ht : tabs ≠ []) (hc : cards ≠ []) :
    ∃ t, specInitialTab tabs = some t ∧
      tabFilterKey toLowerCase t =
        (if truthy t.dataFilter then specTabKey toLowerCase t
         else replaceWhiteSpaceRuns (toLowerCase (trim t.textContent))) ∧
      (filterSetup toLowerCase tabs cards).cards =
        applyFilter toLowerCase
          (if tabFilterKey toLowerCase t = "" then "all" else tabFilterKey toLowerCase t)
          cards ∧
      hiddenCards (filterSetup toLowerCase tabs cards).cards =
        hiddenCards (applyFilter toLowerCase
          (if tabFilterKey toLowerCase t = "" then "all" else tabFilterKey toLowerCase t)
          cards) ∧
      (filterSetup toLowerCase tabs cards).keys = tabs.map (tabFilterKey toLowerCase) := by
  obtain ⟨t, hi⟩ := specInitialTab_isSome tabs ht
  have hcards := filterSetup_cards toLowerCase tabs cards t ht hc hi
  refine ⟨t, hi, ?_, hcards, by rw [hcards], ?_⟩
  · unfold tabFilterKey truthy specTabKey
    cases t.dataFilter with
    | none => rfl
    | some f => by_cases hf : f = "" <;> simp [hf]
  · have h1 : ¬ tabs.length = 0 := fun h => ht (List.length_eq_zero.mp h)
    have h2 : ¬ cards.length = 0 := fun h => hc (List.length_eq_zero.mp h)
    unfold filterSetup
    simp only [h1, h2, decide_False, Bool.or_self, Bool.false_eq_true, if_false]
    split <;> rfl

/-- Witness of `filterSetup_initial`: controls `All` and `Art` (the second
marked active) over cards tagged art, photo, art. -/
theorem filterSetup_initial_witness :
    (([⟨none, "All", []⟩, ⟨none, " Art ", ["active"]⟩] : List Tab) ≠ [] ∧
      ([⟨some "art", []⟩, ⟨some "photo", []⟩, ⟨some "art", []⟩] : List Card) ≠ []) ∧
    ∃ t, specInitialTab [⟨none, "All", []⟩, ⟨none, " Art ", ["active"]⟩] = some t ∧
      hiddenCards (filterSetup asciiToLowerCase
        [⟨none, "All", []⟩, ⟨none, " Art ", ["active"]⟩]
        [⟨some "art", []⟩, ⟨some "photo", []⟩, ⟨some "art", []⟩]).cards =
        hiddenCards (applyFilter asciiToLowerCase
          (if tabFilterKey asciiToLowerCase t = "" then "all"
           else tabFilterKey asciiToLowerCase t)
          [⟨some "art", []⟩, ⟨some "photo", []⟩, ⟨some "art", []⟩]) :=
  ⟨⟨by decide, by decide⟩,
   (filterSetup_initial asciiToLowerCase [⟨none, "All", []⟩, ⟨none, " Art ", ["active"]⟩]
      [⟨some "art", []⟩, ⟨some "photo", []⟩, ⟨some "art", []⟩] (by decide) (by decide)).elim
    (fun t h => ⟨t, h.1, h.2.2.2.1⟩)⟩

/-- C7 as stated fails: a single control without `data-filter` and with a
blank label has the empty key, whose application hides the card tagged `art`,
while set-up applies `all` and hides nothing; and a control whose
`data-filter` attribute is present but empty gets its key from its label. -/
theorem filterSetup_initial_counterexample :
    (specInitialTab [⟨none, "  ", []⟩] = some ⟨none, "  ", []⟩ ∧
     specTabKey asciiToLowerCase ⟨none, "  ", []⟩ = "" ∧
     hiddenCards (filterSetup asciiToLowerCase [⟨none, "  ", []⟩] [⟨some "art", []⟩]).cards =
       [] ∧
     hiddenCards (applyFilter asciiToLowerCase (specTabKey asciiToLowerCase ⟨none, "  ", []⟩)
       [⟨some "art", []⟩]) = [0]) ∧
    (specTabKey asciiToLowerCase ⟨some "", "Art", []⟩ = "" ∧
     hiddenCards (filterSetup asciiToLowerCase [⟨some "", "Art", []⟩]
       [⟨some "art", []⟩]).cards = [] ∧
     hiddenCards (applyFilter asciiToLowerCase
       (specTabKey asciiToLowerCase ⟨some "", "Art", []⟩) [⟨some "art", []⟩]) = [0]) := by
  decide

/-! ## Lazy image loading -/

/-- The image at position `i` has been loaded from `v` and is no longer observed. -/
theorem imageObserverEntry_loaded (st : LazyState) (e : Entry) (i : Nat) (v : String)
    (h : st.images.get? i = some ⟨some v, none⟩ ∧ i ∉ st.observed) :
    (imageObserverEntry st e).images.get? i = some ⟨some v, none⟩ ∧
      i ∉ (imageObserverEntry st e).observed := by
  obtain ⟨h1, h2⟩ := h
  unfold imageObserverEntry
  by_cases hint : e.isIntersecting = true
  · rw [if_pos hint]
    cases himg : st.images.get? e.target with
    | none => exact ⟨h1, h2⟩
    | some img =>
      simp only
      by_cases ht : truthy img.dataSrc = true
      · rw [if_pos ht]
        have hne : e.target ≠ i := by
          intro heq
          rw [heq, h1] at himg
          cases himg
          simp [truthy] at ht
        refine ⟨?_, ?_⟩
        · simp only [List.get?_eq_getElem?] at h1 ⊢
          rw [List.getElem?_set_ne hne]
          exact h1
        · intro hmem
          exact h2 (List.mem_filter.mp hmem).1
      · rw [if_neg ht]
        exact ⟨h1, h2⟩
  · rw [if_neg hint]
    exact ⟨h1, h2⟩

theorem imageObserverCallback_loaded (entries : List Entry) (st : LazyState) (i : Nat)
    (v : String) (h : st.images.get? i = some ⟨some v, none⟩ ∧ i ∉ st.observed) :
    (imageObserverCallback entries st).images.get? i = some ⟨some v, none⟩ ∧
      i ∉ (imageObserverCallback entries st).observed := by
  unfold imageObserverCallback
  induction entries generalizing st with
  | nil => exact h
  | cons e rest ih => exact ih _ (imageObserverEntry_loaded st e i v h)

theorem imageObserverEntry_hit (st : LazyState) (i : Nat) (s0 : Option String) (v : String)
    (himg : st.images.get? i = some ⟨s0, some v⟩) (hv : v ≠ "") :
    (imageObserverEntry st ⟨i, true⟩).images.get? i = some ⟨some v, none⟩ ∧
      i ∉ (imageObserverEntry st ⟨i, true⟩).observed := by
  have hlen : i < st.images.length := by
    rw [List.get?_eq_getElem?] at himg
    exact (List.getElem?_eq_some.mp himg).1
  unfold imageObserverEntry
  simp only [if_true, himg, truthy, bne_iff_ne, ne_eq, hv, not_false_eq_true, decide_True]
  refine ⟨?_, ?_⟩
  · rw [List.get?_eq_getElem?, List.getElem?_set_self hlen]
  · intro hmem
    have := (List.mem_filter.mp hmem).2
    simp at this

theorem imageObserverEntry_miss (st : LazyState) (e : Entry) (i : Nat) (img : Img)
    (himg : st.images.get? i = some img) (hne : e ≠ ⟨i, true⟩) :
    (imageObserverEntry st e).images.get? i = some img := by
  unfold imageObserverEntry
  by_cases hint : e.isIntersecting = true
  · rw [if_pos hint]
    have ht : e.target ≠ i := by
      intro heq
      apply hne
      cases e
      simp_all
    cases hj : st.images.get? e.target with
    | none => exact himg
    | some other =>
      simp only
      split
      · simp only [List.get?_eq_getElem?] at himg ⊢
        rw [List.getElem?_set_ne ht]
        exact himg
      · exact himg
  · rw [if_neg hint]
    exact himg

theorem imageObserverCallback_hit (entries : List Entry) (st : LazyState) (i : Nat)
    (s0 : Option String) (v : String)
    (himg : st.images.get? i = some ⟨s0, some v⟩) (hv : v ≠ "")
    (he : (⟨i, true⟩ : Entry) ∈ entries) :
    (imageObserverCallback entries st).images.get? i = some ⟨some v, none⟩ ∧
      i ∉ (imageObserverCallback entries st).observed := by
  induction entries generalizing st with
  | nil => exact absurd he (List.not_mem_nil _)
  | cons e rest ih =>
    by_cases heq : e = ⟨i, true⟩
    · subst heq
      exact imageObserverCallback_loaded rest _ i v (imageObserverEntry_hit st i s0 v himg hv)
    · have hrest : (⟨i, true⟩ : Entry) ∈ rest := by
        rcases List.mem_cons.mp he with h | h
        · exact absurd h.symm heq
        · exact h
      exact ih _ (imageObserverEntry_miss st e i _ himg heq) hrest

theorem imageObserverEntry_again (st : LazyState) (e : Entry) (v : String)
    (h : st.images.get? e.target = some ⟨some v, none⟩) :
    imageObserverEntry st e = st := by
  unfold imageObserverEntry
  split
  · rw [h]
    simp [truthy]
  · rfl

/-- C5 (as amended): for an image whose `data-src` attribute has a non-empty
value `v`, after the callback has run on entries that include an intersecting
entry for it, its `src` is `v`, its `data-src` attribute is absent and it is no
longer observed; running the callback again with entries for that image
changes nothing. -/
theorem imageObserver_loads (st : LazyState) (i : Nat) (s0 : Option String) (v : String)
    (entries : List Entry)
    (himg : st.images.get? i = some ⟨s0, some v⟩) (hv : v ≠ "")
    (he : (⟨i, true⟩ : Entry) ∈ entries) :
    (imageObserverCallback entries st).images.get? i = some ⟨some v, none⟩ ∧
    i ∉ (imageObserverCallback entries st).observed ∧
    ∀ again : List Entry, (∀ e ∈ again, e.target = i) →
      imageObserverCallback again (imageObserverCallback entries st) =
        imageObserverCallback entries st := by
  obtain ⟨h1, h2⟩ := imageObserverCallback_hit entries st i s0 v himg hv he
  refine ⟨h1, h2, ?_⟩
  intro again hall
  generalize imageObserverCallback entries st = st1 at h1
  unfold imageObserverCallback
  induction again with
  | nil => rfl
  | cons e rest ih =>
    have ht : e.target = i := hall e (List.mem_cons_self _ _)
    rw [List.foldl_cons, imageObserverEntry_again st1 e v (by rw [ht]; exact h1)]
    exact ih (fun e1 h => hall e1 (List.mem_cons_of_mem _ h))

/-- Witness of `imageObserver_loads`: two observed images, the second one
intersecting. -/
theorem imageObserver_loads_witness :
    ((lazySetup true [⟨none, some "a.png"⟩, ⟨some "ph.gif", some "b.png"⟩]).images.get? 1 =
        some ⟨some "ph.gif", some "b.png"⟩ ∧ "b.png" ≠ "" ∧
      (⟨1, true⟩ : Entry) ∈ [(⟨0, false⟩ : Entry), ⟨1, true⟩]) ∧
    (imageObserverCallback [⟨0, false⟩, ⟨1, true⟩]
        (lazySetup true [⟨none, some "a.png"⟩, ⟨some "ph.gif", some "b.png"⟩])).images.get? 1 =
      some ⟨some "b.png", none⟩ ∧
    1 ∉ (imageObserverCallback [⟨0, false⟩, ⟨1, true⟩]
        (lazySetup true [⟨none, some "a.png"⟩, ⟨some "ph.gif", some "b.png"⟩])).observed :=
  ⟨⟨by decide, by decide, by decide⟩,
   (imageObserver_loads (lazySetup true [⟨none, some "a.png"⟩, ⟨some "ph.gif", some "b.png"⟩])
      1 (some "ph.gif") "b.png" [⟨0, false⟩, ⟨1, true⟩] (by decide) (by decide) (by decide)).1,
   (imageObserver_loads (lazySetup true [⟨none, some "a.png"⟩, ⟨some "ph.gif", some "b.png"⟩])
      1 (some "ph.gif") "b.png" [⟨0, false⟩, ⟨1, true⟩] (by decide) (by decide) (by decide)).2.1⟩

/-- C5 as stated fails: an image whose `data-src` attribute is present with
the empty value is observed, and the callback on an intersecting entry leaves
its `src` unset, its `data-src` in place and the image observed. -/
theorem imageObserver_loads_counterexample :
    (lazySetup true [⟨none, some ""⟩]).observed = [0] ∧
    (imageObserverCallback [⟨0, true⟩] (lazySetup true [⟨none, some ""⟩])).images.get? 0 =
      some ⟨none, some ""⟩ ∧
    (imageObserverCallback [⟨0, true⟩] (lazySetup true [⟨none, some ""⟩])).images.get? 0 ≠
      some ⟨some "", none⟩ ∧
    0 ∈ (imageObserverCallback [⟨0, true⟩] (lazySetup true [⟨none, some ""⟩])).observed := by
  decide

/-! ## Focus trap -/

theorem trapFocus_eq (fs : List Nat) :
    trapFocus fs = { firstFocusable := fs.head?, lastFocusable := fs.getLast? } := by
  unfold trapFocus
  rw [List.get?_zero, List.get?_eq_getElem?, ← List.getLast?_eq_getElem?]

theorem strictEqElement_iff (a b : Option Nat) :
    strictEqElement a b = true ↔ ∃ x, a = some x ∧ b = some x := by
  unfold strictEqElement
  cases a with
  | none => simp
  | some x =>
    cases b with
    | none => simp
    | some y =>
      simp only [beq_iff_eq, Option.some.injEq]
      constructor
      · rintro rfl; exact ⟨x, rfl, rfl⟩
      · rintro ⟨z, rfl, rfl⟩; rfl

theorem head_isSome_of_getLast (fs : List Nat) (x : Nat) (h : fs.getLast? = some x) :
    ∃ first, fs.head? = some first := by
  cases fs with
  | nil => simp at h
  | cons a rest => exact ⟨a, rfl⟩

theorem getLast_isSome_of_head (fs : List Nat) (x : Nat) (h : fs.head? = some x) :
    ∃ last, fs.getLast? = some last := by
  cases fs with
  | nil => simp at h
  | cons a rest => exact ⟨(a :: rest).getLast (List.cons_ne_nil _ _), List.getLast?_eq_getLast _ _⟩

/-- What the listener `trapFocus` installs over the list `fs` does on every
event: Tab without shift while the focus is on the last element of `fs` calls
`focus()` on the first element, which takes the focus if the host lets it, and
suppresses the default; Tab with shift while the focus is on the first element
does the same towards the last; in every other case (another key, focus
elsewhere or nowhere, `fs` empty) focus and default action are untouched; and
the listener never throws. -/
theorem trapKeydown_cases (canFocus : Nat → Bool) (fs : List Nat) (e : KeyEvent)
    (st : FocusState) :
    (e.key = "Tab" → e.shiftKey = false →
      ∀ x, st.activeElement = some x → fs.getLast? = some x →
        ∃ first, fs.head? = some first ∧
          trapKeydown canFocus (trapFocus fs) e st =
            Except.ok { activeElement := if canFocus first then some first else some x
                        defaultPrevented := true }) ∧
    (e.key = "Tab" → e.shiftKey = true →
      ∀ x, st.activeElement = some x → fs.head? = some x →
        ∃ last, fs.getLast? = some last ∧
          trapKeydown canFocus (trapFocus fs) e st =
            Except.ok { activeElement := if canFocus last then some last else some x
                        defaultPrevented := true }) ∧
    (¬ (e.key = "Tab" ∧ ∃ x, st.activeElement = some x ∧
          ((e.shiftKey = false ∧ fs.getLast? = some x) ∨
           (e.shiftKey = true ∧ fs.head? = some x))) →
      trapKeydown canFocus (trapFocus fs) e st = Except.ok st) ∧
    (∃ st1, trapKeydown canFocus (trapFocus fs) e st = Except.ok st1) := by
  rw [trapFocus_eq]
  have fwd : e.key = "Tab" → e.shiftKey = false →
      ∀ x, st.activeElement = some x → fs.getLast? = some x →
        ∃ first, fs.head? = some first ∧
          trapKeydown canFocus { firstFocusable := fs.head?, lastFocusable := fs.getLast? } e st =
            Except.ok { activeElement := if canFocus first then some first else some x
                        defaultPrevented := true } := by
    intro hk hs x ha hl
    obtain ⟨first, hf⟩ := head_isSome_of_getLast fs x hl
    refine ⟨first, hf, ?_⟩
    have hq : strictEqElement st.activeElement fs.getLast? = true :=
      (strictEqElement_iff _ _).mpr ⟨x, ha, hl⟩
    rw [ha] at hq
    cases hcf : canFocus first <;>
      simp [trapKeydown, hk, hs, hq, hf, focus, Except.map, hcf, ha]
  have bwd : e.key = "Tab" → e.shiftKey = true →
      ∀ x, st.activeElement = some x → fs.head? = some x →
        ∃ last, fs.getLast? = some last ∧
          trapKeydown canFocus { firstFocusable := fs.head?, lastFocusable := fs.getLast? } e st =
            Except.ok { activeElement := if canFocus last then some last else some x
                        defaultPrevented := true } := by
    intro hk hs x ha hh
    obtain ⟨last, hl⟩ := getLast_isSome_of_head fs x hh
    refine ⟨last, hl, ?_⟩
    have hq : strictEqElement st.activeElement fs.head? = true :=
      (strictEqElement_iff _ _).mpr ⟨x, ha, hh⟩
    rw [ha] at hq
    cases hcf : canFocus last <;>
      simp [trapKeydown, hk, hs, hq, hl, focus, Except.map, hcf, ha]
  have other : ¬ (e.key = "Tab" ∧ ∃ x, st.activeElement = some x ∧
          ((e.shiftKey = false ∧ fs.getLast? = some x) ∨
           (e.shiftKey = true ∧ fs.head? = some x))) →
      trapKeydown canFocus { firstFocusable := fs.head?, lastFocusable := fs.getLast? } e st =
        Except.ok st := by
    intro hno
    unfold trapKeydown
    by_cases hk : e.key = "Tab"
    · simp only [hk, bne_self_eq_false, Bool.false_eq_true, if_false]
      cases hs : e.shiftKey with
      | true =>
        have hq : ¬ strictEqElement st.activeElement fs.head? = true := by
          intro hq
          obtain ⟨x, ha, hh⟩ := (strictEqElement_iff _ _).mp hq
          exact hno ⟨hk, x, ha, Or.inr ⟨hs, hh⟩⟩
        simp [hq]
      | false =>
        have hq : ¬ strictEqElement st.activeElement fs.getLast? = true := by
          intro hq
          obtain ⟨x, ha, hl⟩ := (strictEqElement_iff _ _).mp hq
          exact hno ⟨hk, x, ha, Or.inl ⟨hs, hl⟩⟩
        simp [hq]
    · simp [hk]
  refine ⟨fwd, bwd, other, ?_⟩
  by_cases hc : e.key = "Tab" ∧ ∃ x, st.activeElement = some x ∧
          ((e.shiftKey = false ∧ fs.getLast? = some x) ∨
           (e.shiftKey = true ∧ fs.head? = some x))
  · obtain ⟨hk, x, ha, h | h⟩ := hc
    · obtain ⟨first, _, h2⟩ := fwd hk h.1 x ha h.2
      exact ⟨_, h2⟩
    · obtain ⟨last, _, h2⟩ := bwd hk h.1 x ha h.2
      exact ⟨_, h2⟩
  · exact ⟨st, other hc⟩

/-- Witness of `trapKeydown_cases`: three focusable elements 4, 7, 9, all able
to take focus; Tab on 9 wraps to 4. -/
theorem trapKeydown_cases_witness :
    ((⟨"Tab", false⟩ : KeyEvent).key = "Tab" ∧ (⟨"Tab", false⟩ : KeyEvent).shiftKey = false ∧
      (⟨some 9, false⟩ : FocusState).activeElement = some 9 ∧ [4, 7, 9].getLast? = some 9) ∧
    ∃ first, [4, 7, 9].head? = some first ∧
      trapKeydown (fun _ => true) (trapFocus [4, 7, 9]) ⟨"Tab", false⟩ ⟨some 9, false⟩ =
        Except.ok { activeElement := if (fun _ => true) first then some first else some 9
                    defaultPrevented := true } :=
  ⟨⟨rfl, rfl, rfl, rfl⟩,
   (trapKeydown_cases (fun _ => true) [4, 7, 9] ⟨"Tab", false⟩ ⟨some 9, false⟩).1
      rfl rfl 9 rfl rfl⟩

/-- C8, the failing input: the first element `trapFocus` collects cannot take
focus (a disabled button matches the selector `button`).  Tab without shift
while the focus is on the last element `last` calls `focus()` on that first
element, which does nothing, and then suppresses the default: the focus stays
on `last` instead of moving to the first element, and Tab no longer moves it
at all. -/
theorem trapKeydown_unfocusable (canFocus : Nat → Bool) (fs : List Nat) (first last : Nat)
    (hf : fs.head? = some first) (hl : fs.getLast? = some last)
    (hne : first ≠ last) (hc : canFocus first = false) :
    trapKeydown canFocus (trapFocus fs) ⟨"Tab", false⟩ ⟨some last, false⟩ =
      Except.ok { activeElement := some last, defaultPrevented := true } ∧
    trapKeydown canFocus (trapFocus fs) ⟨"Tab", false⟩ ⟨some last, false⟩ ≠
      Except.ok { activeElement := some first, defaultPrevented := true } := by
  have h : trapKeydown canFocus (trapFocus fs) ⟨"Tab", false⟩ ⟨some last, false⟩ =
      Except.ok { activeElement := some last, defaultPrevented := true } := by
    obtain ⟨f1, hf1, h1⟩ := (trapKeydown_cases canFocus fs ⟨"Tab", false⟩
      ⟨some last, false⟩).1 rfl rfl last rfl hl
    rw [hf] at hf1
    cases hf1
    rw [h1, hc]
    rfl
  refine ⟨h, ?_⟩
  rw [h]
  intro heq
  injection heq with h2
  injection h2 with h3
  injection h3 with h4
  exact hne h4.symm

/-- Witness of `trapKeydown_unfocusable`: the drawer holds a disabled button
(element 1) followed by a link (element 2), and the focus is on the link. -/
theorem trapKeydown_unfocusable_witness :
    ([1, 2].head? = some 1 ∧ [1, 2].getLast? = some 2 ∧ (1 : Nat) ≠ 2 ∧
      (fun n : Nat => n != 1) 1 = false) ∧
    trapKeydown (fun n : Nat => n != 1) (trapFocus [1, 2]) ⟨"Tab", false⟩ ⟨some 2, false⟩ =
      Except.ok { activeElement := some 2, defaultPrevented := true } :=
  ⟨⟨rfl, rfl, by decide, rfl⟩,
   (trapKeydown_unfocusable (fun n : Nat => n != 1) [1, 2] 1 2 rfl rfl (by decide) rfl).1⟩

/-! ## Smooth scrolling -/

/-- The handler always suppresses the default action; it scrolls exactly when
the href is not `#` and `querySelector` returns an element, then once, smoothly,
to `top + pageYOffset - 80`; and it throws exactly when the href is not `#` and
`querySelector` throws. -/
theorem anchorClick_cases (querySelector : String → Except DOMException (Option TargetElement))
    (pageYOffset : Int) (href : String) :
    (anchorClick querySelector pageYOffset href).defaultPrevented = true ∧
    (href = "#" → anchorClick querySelector pageYOffset href =
      { defaultPrevented := true, scrolls := [], thrown := none }) ∧
    (∀ el, href ≠ "#" → querySelector href = Except.ok (some el) →
      anchorClick querySelector pageYOffset href =
        { defaultPrevented := true
          scrolls := [{ top := el.top + pageYOffset - 80, behavior := "smooth" }]
          thrown := none }) ∧
    (href ≠ "#" → querySelector href = Except.ok none →
      anchorClick querySelector pageYOffset href =
        { defaultPrevented := true, scrolls := [], thrown := none }) ∧
    (∀ ex, href ≠ "#" → querySelector href = Except.error ex →
      anchorClick querySelector pageYOffset href =
        { defaultPrevented := true, scrolls := [], thrown := some ex }) := by
  refine ⟨?_, ?_, ?_, ?_, ?_⟩
  · unfold anchorClick
    simp only
    split
    · rfl
    · split <;> rfl
  · intro h
    simp [anchorClick, h]
  · intro el h hq
    simp [anchorClick, h, hq]
  · intro h hq
    simp [anchorClick, h, hq]
  · intro ex h hq
    simp [anchorClick, h, hq]

/-- Witness of `anchorClick_cases`: a link to `#about`, the element being 500
pixels below the viewport top and the page scrolled by 120. -/
theorem anchorClick_cases_witness :
    ("#about" ≠ "#" ∧
      idQuerySelector [("about", ⟨500⟩)] (fun _ => Except.ok none) "#about" =
        Except.ok (some ⟨500⟩)) ∧
    anchorClick (idQuerySelector [("about", ⟨500⟩)] (fun _ => Except.ok none)) 120 "#about" =
      { defaultPrevented := true, scrolls := [{ top := 540, behavior := "smooth" }],
        thrown := none } :=
  ⟨⟨by decide, rfl⟩,
   (anchorClick_cases (idQuerySelector [("about", ⟨500⟩)] (fun _ => Except.ok none)) 120
      "#about").2.2.1 ⟨500⟩ (by decide) rfl⟩

/-- C6, the failing input: a click on a link whose href is `#1`.  `#1` is not a
valid selector, `document.querySelector` throws, and the handler ends with
that exception after suppressing the default action, without scrolling;
the same click with `#nonexistent` ends silently. -/
theorem anchorClick_invalid_selector (ids : List (String × TargetElement))
    (other : String → Except DOMException (Option TargetElement)) (pageYOffset : Int) :
    anchorClick (idQuerySelector ids other) pageYOffset "#1" =
      { defaultPrevented := true, scrolls := [], thrown := some DOMException.syntaxError } ∧
    anchorClick (idQuerySelector [] other) pageYOffset "#nonexistent" =
      { defaultPrevented := true, scrolls := [], thrown := none } := by
  constructor
  · have h : idQuerySelector ids other "#1" = Except.error DOMException.syntaxError := rfl
    exact (anchorClick_cases (idQuerySelector ids other) pageYOffset "#1").2.2.2.2
      DOMException.syntaxError (by decide) h
  · have h : idQuerySelector [] other "#nonexistent" = Except.ok none := rfl
    exact (anchorClick_cases (idQuerySelector [] other) pageYOffset "#nonexistent").2.2.2.1
      (by decide) h

/-! ## Reduced motion -/

theorem kept_refl (page : List Element) : List.Forall₂ Kept page page := by
  induction page with
  | nil => exact List.Forall₂.nil
  | cons a rest ih => exact List.Forall₂.cons ⟨rfl, rfl, Or.inl rfl⟩ ih

theorem kept_modifyAt (page els : List Element) (i : Nat) (f : Element → Element)
    (hf : ∀ a b, Kept a b → Kept a (f b)) (h : List.Forall₂ Kept page els) :
    List.Forall₂ Kept page (modifyAt els i f) := by
  induction h generalizing i with
  | nil => exact List.Forall₂.nil
  | cons hab _ ih =>
    cases i with
    | zero => exact List.Forall₂.cons (hf _ _ hab) (by assumption)
    | succ j => exact List.Forall₂.cons hab (ih j)

theorem kept_classes (page els : List Element) (h : List.Forall₂ Kept page els) :
    els.map Element.classes = page.map Element.classes := by
  induction h with
  | nil => rfl
  | cons hab _ ih => simp only [List.map_cons, hab.1, ih]

theorem kept_animation (page els : List Element) (h : List.Forall₂ Kept page els) :
    List.Forall₂ (fun a b => ("fade-in" ∈ b.classes → "fade-in" ∈ a.classes) ∧
      ("visible" ∈ b.classes → "visible" ∈ a.classes)) page els := by
  induction h with
  | nil => exact List.Forall₂.nil
  | cons hab _ ih =>
    refine List.Forall₂.cons ⟨?_, ?_⟩ ih
    · intro hm; rw [← hab.1]; exact hm
    · intro hm; rw [← hab.1]; exact hm

theorem kept_transform (page els : List Element) (h : List.Forall₂ Kept page els) :
    List.Forall₂ (fun a b => b.transform = a.transform ∨ b.transform = some "scale(1)" ∨
      b.transform = some "translateY(0)") page els := by
  induction h with
  | nil => exact List.Forall₂.nil
  | cons hab _ ih => exact List.Forall₂.cons hab.2.2 ih

theorem reducedInv_setup (page : List Element) : ReducedInv page (motionSetup true page) :=
  ⟨rfl, rfl, rfl, kept_refl page⟩

theorem reducedInv_setTransform (page : List Element) (st : MotionState) (i : Nat)
    (value : String) (hv : value = "scale(1)" ∨ value = "translateY(0)")
    (h : ReducedInv page st) : ReducedInv page (setTransform st i value) := by
  obtain ⟨h1, h2, h3, h4⟩ := h
  refine ⟨h1, h2, h3, ?_⟩
  apply kept_modifyAt page st.elements i _ _ h4
  intro a b hab
  refine ⟨hab.1, hab.2.1, ?_⟩
  rcases hv with rfl | rfl
  · exact Or.inr (Or.inl rfl)
  · exact Or.inr (Or.inr rfl)

theorem reducedInv_whenRegistered (page : List Element) (registered : List Nat) (i : Nat)
    (listener : Nat → MotionState → MotionState)
    (hl : ∀ st, ReducedInv page st → ReducedInv page (listener i st))
    (st : MotionState) (h : ReducedInv page st) :
    ReducedInv page (whenRegistered registered i listener st) := by
  unfold whenRegistered
  split
  · exact hl st h
  · exact h

theorem whenRegistered_id (registered : List Nat) (i : Nat)
    (listener : Nat → MotionState → MotionState) (st : MotionState)
    (hl : listener i st = st) : whenRegistered registered i listener st = st := by
  unfold whenRegistered
  split
  · exact hl
  · rfl

theorem motionStep_noop (page : List Element) (st : MotionState) (e : MotionEvent)
    (h : ReducedInv page st) (he : e.isMouseleave = false) : motionStep st e = st := by
  obtain ⟨h1, h2, h3, _⟩ := h
  cases e with
  | mouseenter i =>
    have hb : buttonMouseenter i st = st := by simp [buttonMouseenter, h1]
    have hc : cardMouseenter i st = st := by simp [cardMouseenter, h1]
    simp only [motionStep]
    rw [whenRegistered_id st.buttons i buttonMouseenter st hb,
      whenRegistered_id st.nftCards i cardMouseenter st hc]
  | mouseleave i => exact absurd he (by simp [MotionEvent.isMouseleave])
  | mousedown i =>
    have hb : buttonMousedown i st = st := by simp [buttonMousedown, h1]
    simp only [motionStep]
    exact whenRegistered_id st.buttons i buttonMousedown st hb
  | mouseup i =>
    have hb : buttonMouseup i st = st := by simp [buttonMouseup, h1]
    simp only [motionStep]
    exact whenRegistered_id st.buttons i buttonMouseup st hb
  | intersect entries => simp only [motionStep, h2]
  | timeout k => simp [motionStep, h3]

theorem reducedInv_step (page : List Element) (st : MotionState) (e : MotionEvent)
    (h : ReducedInv page st) : ReducedInv page (motionStep st e) := by
  cases hl : e.isMouseleave with
  | false => rw [motionStep_noop page st e h hl]; exact h
  | true =>
    cases e with
    | mouseleave i =>
      simp only [motionStep]
      apply reducedInv_whenRegistered page st.nftCards i cardMouseleave
      · intro s hs
        exact reducedInv_setTransform page s i _ (Or.inr rfl) hs
      · apply reducedInv_whenRegistered page st.buttons i buttonMouseleave
        · intro s hs
          exact reducedInv_setTransform page s i _ (Or.inl rfl) hs
        · exact h
    | mouseenter i => simp [MotionEvent.isMouseleave] at hl
    | mousedown i => simp [MotionEvent.isMouseleave] at hl
    | mouseup i => simp [MotionEvent.isMouseleave] at hl
    | intersect entries => simp [MotionEvent.isMouseleave] at hl
    | timeout k => simp [MotionEvent.isMouseleave] at hl

theorem reducedInv_run (page : List Element) (st : MotionState) (es : List MotionEvent)
    (h : ReducedInv page st) : ReducedInv page (motionRun st es) := by
  unfold motionRun
  induction es generalizing st with
  | nil => exact h
  | cons e rest ih => exact ih _ (reducedInv_step page st e h)

/-- C3 (as amended): under the reduced-motion preference, after page load and
any sequence of pointer, intersection and timer events, no element carries
`fade-in` or `visible` unless the markup gave it that class (no animation
class is ever added); every event other than `mouseleave` leaves the whole
state unchanged (the `mouseenter`, `mousedown` and `mouseup` listeners set no
transform); and the inline transform of an element is what the markup gave it
or one of the two values the `mouseleave` listeners assign, `scale(1)` and
`translateY(0)`. -/
theorem reducedMotion_invariant (page : List Element) (es : List MotionEvent) :
    List.Forall₂ (fun a b => ("fade-in" ∈ b.classes → "fade-in" ∈ a.classes) ∧
      ("visible" ∈ b.classes → "visible" ∈ a.classes)) page
      (motionRun (motionSetup true page) es).elements ∧
    (∀ e : MotionEvent, e.isMouseleave = false →
      motionStep (motionRun (motionSetup true page) es) e =
        motionRun (motionSetup true page) es) ∧
    List.Forall₂ (fun a b => b.transform = a.transform ∨ b.transform = some "scale(1)" ∨
      b.transform = some "translateY(0)") page
      (motionRun (motionSetup true page) es).elements := by
  have hinv := reducedInv_run page _ es (reducedInv_setup page)
  exact ⟨kept_animation _ _ hinv.2.2.2, fun e he => motionStep_noop page _ e hinv he,
    kept_transform _ _ hinv.2.2.2⟩

/-- Witness of `reducedMotion_invariant`: a button pressed and released under
reduced motion. -/
theorem reducedMotion_invariant_witness :
    (MotionEvent.mouseup 0).isMouseleave = false ∧
    motionStep (motionRun (motionSetup true [⟨["btn"], none, none⟩])
        [MotionEvent.mouseenter 0, MotionEvent.mousedown 0]) (MotionEvent.mouseup 0) =
      motionRun (motionSetup true [⟨["btn"], none, none⟩])
        [MotionEvent.mouseenter 0, MotionEvent.mousedown 0] :=
  ⟨rfl,
   (reducedMotion_invariant [⟨["btn"], none, none⟩]
      [MotionEvent.mouseenter 0, MotionEvent.mousedown 0]).2.1 (MotionEvent.mouseup 0) rfl⟩

/-- C3 as stated fails: under reduced motion the `mouseleave` listener of a
button sets the inline transform `scale(1)`, and that of a card
`translateY(0)`, on elements that had none. -/
theorem reducedMotion_counterexample :
    (motionRun (motionSetup true [⟨["btn"], none, none⟩])
        [MotionEvent.mouseleave 0]).elements = [⟨["btn"], some "scale(1)", none⟩] ∧
    (motionRun (motionSetup true [⟨["nft-card"], none, none⟩])
        [MotionEvent.mouseleave 0]).elements = [⟨["nft-card"], some "translateY(0)", none⟩] ∧
    (motionRun (motionSetup true [⟨["btn"], none, none⟩])
        [MotionEvent.mouseleave 0]).elements.map Element.transform ≠
      ([⟨["btn"], none, none⟩] : List Element).map Element.transform := by
  decide

end Script
